import Mathlib

/-!
Verification development for the dry-spell water-tank sizing core.

The JavaScript sources (`js/water-balance.js`, `js/security-mode.js`,
`js/opportunistic-mode.js`, `js/utils.js`) are shallowly embedded below.
Modelling conventions:

* JavaScript numbers are modelled as exact rationals (`ℚ`); IEEE-754
  rounding is abstracted away, and decimal literals of the source are read
  as the exact rationals they denote.
* A JavaScript `Date` is modelled as a `JsDate`: an ordinal `time`
  (`getTime`) together with a `year` (`getFullYear`).
* A thrown `Error` is modelled with `Except String`; a JavaScript object
  field that may be absent is modelled with `Option` (absent = `none`).
* Locale-dependent date rendering (`toLocaleDateString`) is abstracted to
  the numeral of the model date's ordinal.
* The `while` loop of the binary search is modelled by structural
  recursion on an ample fuel parameter; a lemma below shows the fuel is
  never exhausted, which is the termination argument of the loop.
-/

namespace DrySpell

/-- Model of a JavaScript `Date`: `time` plays the role of `getTime()`
and `year` the role of `getFullYear()`. -/
structure JsDate where
  time : Int
  year : Int
deriving DecidableEq

/-- One parsed daily observation: `{date, rainfall_mm, missing}`. -/
structure DayData where
  date : JsDate
  rainfall_mm : ℚ
  missing : Bool
deriving DecidableEq

/-- `clamp` from `js/utils.js`: `Math.min(Math.max(value, min), max)`. -/
def clamp (value lo hi : ℚ) : ℚ :=
  min (max value lo) hi

/-- `Math.round` on a rational: floor of `q + 1/2` (round half towards +∞). -/
def jsRound (q : ℚ) : Int :=
  ⌊q + 1/2⌋

/-- The `DEFAULTS` object of `js/water-balance.js`. -/
structure DefaultsObj where
  roofArea_m2 : ℚ
  dailyUsage_L : ℚ
  waterRate_perKL : ℚ
  runoffCoefficient : ℚ
  securityConfidence : ℚ
  stressThreshold : ℚ

def DEFAULTS : DefaultsObj :=
  { roofArea_m2 := 180
    dailyUsage_L := 500
    waterRate_perKL := 35/10
    runoffCoefficient := 85/100
    securityConfidence := 95/100
    stressThreshold := 20/100 }

/-- `TANK_SIZES` from `js/water-balance.js`. -/
def TANK_SIZES : List ℚ := [2000, 5000, 10000, 15000, 20000, 25000]

/-- The config object taken by `runWaterBalance`.  The two optional
fields carry `none` when the caller omits them, in which case the
function substitutes the documented defaults. -/
structure WBConfig where
  rainfallData : List DayData
  tankSize_L : ℚ
  roofArea_m2 : ℚ
  dailyUsage_L : ℚ
  runoffCoefficient : Option ℚ := none
  initialLevel_L : Option ℚ := none

/-- One simulated day, as pushed onto `dailyLevels`. -/
structure DailyState where
  date : JsDate
  level_L : ℚ
  inflow_L : ℚ
  usage_L : ℚ
  overflow_L : ℚ
  deficit_L : ℚ
  isEmpty : Bool
  isStressed : Bool
deriving DecidableEq

/-- A period object as built by `runWaterBalance`.  JavaScript builds
empty periods with fields `{startDate, endDate, duration, year}` and
stress periods with fields `{startDate, endDate, minLevel, year}`; a
field that a given record does not carry is `none` here. -/
structure JsPeriod where
  startDate : JsDate
  endDate : JsDate
  duration : Option Nat
  minLevel : Option ℚ
  year : Option Int
deriving DecidableEq

/-- The worst-dry-spell record of `findWorstDrySpell`; all four fields
are always present. -/
structure DrySpellInfo where
  startDate : JsDate
  endDate : JsDate
  totalRainfall : ℚ
  duration : Nat
deriving DecidableEq

/-- The `summary` object of a simulation result. -/
structure Summary where
  totalDays : Nat
  daysEmpty : Nat
  daysBelowStress : Nat
  daysBelow50pct : Nat
  totalOverflow_L : ℚ
  totalDeficit_L : ℚ
  reliabilityPercent : ℚ
  stressPercent : ℚ
deriving DecidableEq

/-- The full return value of `runWaterBalance`. -/
structure SimResult where
  dailyLevels : List DailyState
  summary : Summary
  emptyPeriods : List JsPeriod
  stressPeriods : List JsPeriod
  worstDrySpell : DrySpellInfo
deriving DecidableEq

/-! ## The worst-dry-spell detector (`findWorstDrySpell`) -/

/-- The fixed 2 mm/day running-average threshold. -/
def THRESHOLD_MM_PER_DAY : ℚ := 2

/-- One iteration of the loop in `findWorstDrySpell`: the pair carries
`(worstSpell, currentSpell)`. -/
def drySpellStep (s : Option DrySpellInfo × Option DrySpellInfo) (dayData : DayData) :
    Option DrySpellInfo × Option DrySpellInfo :=
  let rainfall := if dayData.missing then 0 else dayData.rainfall_mm
  match s.2 with
  | none =>
      (s.1, some { startDate := dayData.date, endDate := dayData.date,
                   totalRainfall := rainfall, duration := 1 })
  | some c =>
      let newTotal := c.totalRainfall + rainfall
      let newDuration := c.duration + 1
      let avgRainfall := newTotal / (newDuration : ℚ)
      if avgRainfall < THRESHOLD_MM_PER_DAY then
        (s.1, some { c with
                     endDate := dayData.date
                     totalRainfall := newTotal
                     duration := newDuration })
      else
        let worst2 := match s.1 with
          | none => some c
          | some w => if c.duration > w.duration then some c else some w
        (worst2, some { startDate := dayData.date, endDate := dayData.date,
                        totalRainfall := rainfall, duration := 1 })

/-- `findWorstDrySpell` from `js/water-balance.js`.  The two extra
parameters are passed by the caller but unused by the body, exactly as in
the source.  The fallback `{duration: 0}` object dereferences
`rainfallData[0]`; on an empty list (on which JavaScript would fail with
a TypeError, and which `runWaterBalance` never passes) the model returns
a dummy date. -/
def findWorstDrySpell (rainfallData : List DayData)
    (roofArea_m2 runoffCoefficient : ℚ) : DrySpellInfo :=
  let s := rainfallData.foldl drySpellStep (none, none)
  let worstFinal : Option DrySpellInfo :=
    match s.2 with
    | some c =>
        match s.1 with
        | none => some c
        | some w => if c.duration > w.duration then some c else some w
    | none => s.1
  match worstFinal with
  | some w => w
  | none =>
      match rainfallData with
      | dayData :: _ =>
          { startDate := dayData.date, endDate := dayData.date,
            totalRainfall := 0, duration := 0 }
      | [] => { startDate := ⟨0, 0⟩, endDate := ⟨0, 0⟩, totalRainfall := 0, duration := 0 }

/-! ## The daily water-balance recurrence (`runWaterBalance`) -/

/-- The per-day arithmetic of the loop body of `runWaterBalance`,
producing the `DailyState` that the loop pushes for this day. -/
def mkDailyState (tankSize_L roofArea_m2 dailyUsage_L runoffCoefficient
    stressThreshold_L cur : ℚ) (dayData : DayData) : DailyState :=
  let inflow_L := if dayData.missing then 0
    else dayData.rainfall_mm * roofArea_m2 * runoffCoefficient
  let rawNewLevel := cur + inflow_L - dailyUsage_L
  let overflow_L := max 0 (rawNewLevel - tankSize_L)
  let deficit_L := max 0 (-rawNewLevel)
  let newLevel := clamp rawNewLevel 0 tankSize_L
  { date := dayData.date
    level_L := newLevel
    inflow_L := inflow_L
    usage_L := dailyUsage_L
    overflow_L := overflow_L
    deficit_L := deficit_L
    isEmpty := decide (newLevel = 0)
    isStressed := decide (newLevel < stressThreshold_L) }

/-- A fresh empty period as created on the first empty day of a run:
`{startDate, endDate, duration: 1, year}`. -/
def newEmptyPeriod (st : DailyState) : JsPeriod :=
  { startDate := st.date, endDate := st.date, duration := some 1,
    minLevel := none, year := some st.date.year }

/-- Extension of the open empty period: bump `endDate`, `duration++`. -/
def extendEmptyPeriod (p : JsPeriod) (st : DailyState) : JsPeriod :=
  { p with endDate := st.date, duration := p.duration.map (· + 1) }

/-- The open/close state machine for empty periods, one day's transition.
The pair carries `(closed periods so far, open period)`. -/
def emptyStep (st : DailyState) (acc : List JsPeriod × Option JsPeriod) :
    List JsPeriod × Option JsPeriod :=
  if st.isEmpty then
    match acc.2 with
    | none => (acc.1, some (newEmptyPeriod st))
    | some p => (acc.1, some (extendEmptyPeriod p st))
  else
    match acc.2 with
    | some p => (acc.1 ++ [p], none)
    | none => acc

/-- A fresh stress period: `{startDate, endDate, minLevel, year}` — note
that the source creates stress periods without a `duration` field. -/
def newStressPeriod (st : DailyState) : JsPeriod :=
  { startDate := st.date, endDate := st.date, duration := none,
    minLevel := some st.level_L, year := some st.date.year }

/-- Extension of the open stress period. -/
def extendStressPeriod (p : JsPeriod) (st : DailyState) : JsPeriod :=
  { p with endDate := st.date, minLevel := p.minLevel.map (fun m => min m st.level_L) }

/-- The open/close state machine for stress periods, one day's transition. -/
def stressStep (st : DailyState) (acc : List JsPeriod × Option JsPeriod) :
    List JsPeriod × Option JsPeriod :=
  if st.isStressed then
    match acc.2 with
    | none => (acc.1, some (newStressPeriod st))
    | some p => (acc.1, some (extendStressPeriod p st))
  else
    match acc.2 with
    | some p => (acc.1 ++ [p], none)
    | none => acc

/-- The mutable state of the `for` loop in `runWaterBalance`. -/
structure SimState where
  dailyLevels : List DailyState
  currentLevel : ℚ
  totalOverflow_L : ℚ
  totalDeficit_L : ℚ
  daysEmpty : Nat
  daysBelowStress : Nat
  daysBelow50pct : Nat
  emptyPeriods : List JsPeriod
  stressPeriods : List JsPeriod
  currentEmptyPeriod : Option JsPeriod
  currentStressPeriod : Option JsPeriod
deriving DecidableEq

/-- One iteration of the `for (const dayData of rainfallData)` loop. -/
def simStep (tankSize_L roofArea_m2 dailyUsage_L runoffCoefficient
    stressThreshold_L : ℚ) (s : SimState) (dayData : DayData) : SimState :=
  let st := mkDailyState tankSize_L roofArea_m2 dailyUsage_L runoffCoefficient
    stressThreshold_L s.currentLevel dayData
  let e := emptyStep st (s.emptyPeriods, s.currentEmptyPeriod)
  let g := stressStep st (s.stressPeriods, s.currentStressPeriod)
  { dailyLevels := s.dailyLevels ++ [st]
    currentLevel := st.level_L
    totalOverflow_L := s.totalOverflow_L + st.overflow_L
    totalDeficit_L := s.totalDeficit_L + st.deficit_L
    daysEmpty := s.daysEmpty + (if st.isEmpty then 1 else 0)
    daysBelowStress := s.daysBelowStress + (if st.isStressed then 1 else 0)
    daysBelow50pct := s.daysBelow50pct + (if st.level_L < tankSize_L * (1/2) then 1 else 0)
    emptyPeriods := e.1
    stressPeriods := g.1
    currentEmptyPeriod := e.2
    currentStressPeriod := g.2 }

/-- The initial loop state of `runWaterBalance`. -/
def initSimState (tankSize_L initialLevel_L : ℚ) : SimState :=
  { dailyLevels := []
    currentLevel := clamp initialLevel_L 0 tankSize_L
    totalOverflow_L := 0
    totalDeficit_L := 0
    daysEmpty := 0
    daysBelowStress := 0
    daysBelow50pct := 0
    emptyPeriods := []
    stressPeriods := []
    currentEmptyPeriod := none
    currentStressPeriod := none }

/-- `runWaterBalance` from `js/water-balance.js`. -/
def runWaterBalance (config : WBConfig) : Except String SimResult :=
  let rainfallData := config.rainfallData
  let tankSize_L := config.tankSize_L
  let roofArea_m2 := config.roofArea_m2
  let dailyUsage_L := config.dailyUsage_L
  let runoffCoefficient := config.runoffCoefficient.getD DEFAULTS.runoffCoefficient
  let initialLevel_L := config.initialLevel_L.getD (tankSize_L / 2)
  if rainfallData = [] then
    Except.error "No rainfall data provided"
  else if tankSize_L ≤ 0 ∨ roofArea_m2 ≤ 0 ∨ dailyUsage_L ≤ 0 then
    Except.error "Tank size, roof area, and daily usage must be positive"
  else
    let stressThreshold_L := tankSize_L * DEFAULTS.stressThreshold
    let s := rainfallData.foldl
      (simStep tankSize_L roofArea_m2 dailyUsage_L runoffCoefficient stressThreshold_L)
      (initSimState tankSize_L initialLevel_L)
    Except.ok
      { dailyLevels := s.dailyLevels
        summary :=
          { totalDays := s.dailyLevels.length
            daysEmpty := s.daysEmpty
            daysBelowStress := s.daysBelowStress
            daysBelow50pct := s.daysBelow50pct
            totalOverflow_L := s.totalOverflow_L
            totalDeficit_L := s.totalDeficit_L
            reliabilityPercent :=
              (((s.dailyLevels.length : ℚ) - (s.daysEmpty : ℚ)) / (s.dailyLevels.length : ℚ)) * 100
            stressPercent := ((s.daysBelowStress : ℚ) / (s.dailyLevels.length : ℚ)) * 100 }
        emptyPeriods := s.emptyPeriods ++ s.currentEmptyPeriod.toList
        stressPeriods := s.stressPeriods ++ s.currentStressPeriod.toList
        worstDrySpell := findWorstDrySpell rainfallData roofArea_m2 runoffCoefficient }

/-- `calculateRoofPotential` from `js/water-balance.js`.  The divisions
are total on `ℚ` (division by zero yields `0` where JavaScript would
yield `NaN` or `Infinity`). -/
structure RoofPotential where
  totalCapture_L : ℚ
  annualCapture_L : ℚ
  dailyAverage_L : ℚ
  years : ℚ
deriving DecidableEq

def calculateRoofPotential (rainfallData : List DayData) (roofArea_m2 : ℚ)
    (runoffCoefficient : ℚ := DEFAULTS.runoffCoefficient) : RoofPotential :=
  let totals := rainfallData.foldl
    (fun (acc : ℚ × Nat) day =>
      if day.missing then acc
      else (acc.1 + day.rainfall_mm * roofArea_m2 * runoffCoefficient, acc.2 + 1))
    (0, 0)
  let years : ℚ := (rainfallData.length : ℚ) / (36525/100)
  { totalCapture_L := totals.1
    annualCapture_L := totals.1 / years
    dailyAverage_L := totals.1 / (totals.2 : ℚ)
    years := years }

/-! ## Helpers from `js/utils.js` used by the analysis modules -/

/-- `formatDate` from `js/utils.js`.  The real implementation renders the
date through `toLocaleDateString`; the model abstracts the rendering to
the numeral of the model date's ordinal (the claims never inspect the
rendered text).  The `format` argument is kept for call-site fidelity. -/
def formatDate (date : JsDate) (format : String) : String :=
  toString date.time

/-- `groupBy` from `js/utils.js`: an insertion-ordered map from keys to
the items delivering them, modelled as an association list. -/
def groupBy {α : Type} {κ : Type} [DecidableEq κ] (items : List α) (keyFn : α → κ) :
    List (κ × List α) :=
  items.foldl (fun groups item =>
    let key := keyFn item
    if groups.any (fun g => decide (g.1 = key)) then
      groups.map (fun g => if g.1 = key then (g.1, g.2 ++ [item]) else g)
    else groups ++ [(key, [item])]) []

/-- Insertion step of an ascending insertion sort on integers. -/
def insertSorted (x : Int) : List Int → List Int
  | [] => [x]
  | y :: ys => if x ≤ y then x :: y :: ys else y :: insertSorted x ys

/-- Ascending numeric sort; models `Array.prototype.sort()` on the year
lists (all keys are four-digit years, for which the lexicographic
JavaScript default coincides with numeric order). -/
def sortInts (l : List Int) : List Int :=
  l.foldr insertSorted []

/-- Descending numeric sort, `sort((a, b) => b - a)`. -/
def sortIntsDesc (l : List Int) : List Int :=
  (sortInts l).reverse

/-- First-occurrence deduplication, `[...new Set(xs)]`. -/
def dedupFirst (l : List Int) : List Int :=
  l.foldl (fun acc x => if x ∈ acc then acc else acc ++ [x]) []

/-- `toFixed(1)` on a non-negative rational: round half away from zero to
one decimal and render. -/
def jsToFixed1 (q : ℚ) : String :=
  let n := jsRound (q * 10)
  toString (n / 10) ++ "." ++ toString (n % 10)

/-! ## Security mode (`js/security-mode.js`) -/

def SEARCH_MIN : Int := 1000
def SEARCH_MAX : Int := 100000
def SEARCH_STEP : Int := 500

/-- The result record of `findMinimumTankForConfidence`.  The
`exactMinimum` field is absent (`none`) on the reached-limit branch,
matching the object literals of the source. -/
structure TankSizing where
  recommendedSize : Int
  achievedConfidence : ℚ
  exactMinimum : Option Int
  reachedLimit : Bool
deriving DecidableEq

/-- The `while (low <= high)` binary-search loop of
`findMinimumTankForConfidence`, by structural recursion on fuel.  The
loop state is `(low, high, bestSize, bestReliability)`; a lemma below
shows the fuel of `SEARCH_FUEL` is never exhausted. -/
def tankSearchLoop (rainfallData : List DayData)
    (roofArea_m2 dailyUsage_L targetConfidence : ℚ) :
    Nat → Int → Int → Int → ℚ → Except String (Int × ℚ)
  | 0, _, _, bestSize, bestReliability => Except.ok (bestSize, bestReliability)
  | Nat.succ fuel, low, high, bestSize, bestReliability =>
    if low ≤ high then do
      let mid := jsRound (((low : ℚ) + (high : ℚ)) / 2 / (SEARCH_STEP : ℚ)) * SEARCH_STEP
      let result ← runWaterBalance
        { rainfallData := rainfallData, tankSize_L := (mid : ℚ),
          roofArea_m2 := roofArea_m2, dailyUsage_L := dailyUsage_L }
      let reliability := result.summary.reliabilityPercent / 100
      if targetConfidence ≤ reliability then
        tankSearchLoop rainfallData roofArea_m2 dailyUsage_L targetConfidence
          fuel low (mid - SEARCH_STEP) mid reliability
      else
        tankSearchLoop rainfallData roofArea_m2 dailyUsage_L targetConfidence
          fuel (mid + SEARCH_STEP) high bestSize bestReliability
    else Except.ok (bestSize, bestReliability)

/-- Fuel for the search loop; the bracket spans at most 199 grid points
and shrinks by at least one step per iteration, so 250 is ample. -/
def SEARCH_FUEL : Nat := 250

/-- `findMinimumTankForConfidence` from `js/security-mode.js`. -/
def findMinimumTankForConfidence (rainfallData : List DayData)
    (roofArea_m2 dailyUsage_L targetConfidence : ℚ) : Except String TankSizing := do
  let maxResult ← runWaterBalance
    { rainfallData := rainfallData, tankSize_L := (SEARCH_MAX : ℚ),
      roofArea_m2 := roofArea_m2, dailyUsage_L := dailyUsage_L }
  if maxResult.summary.reliabilityPercent / 100 < targetConfidence then
    pure { recommendedSize := SEARCH_MAX,
           achievedConfidence := maxResult.summary.reliabilityPercent,
           exactMinimum := none, reachedLimit := true }
  else do
    let br ← tankSearchLoop rainfallData roofArea_m2 dailyUsage_L targetConfidence
      SEARCH_FUEL SEARCH_MIN SEARCH_MAX SEARCH_MAX 0
    let bestSize := br.1
    let practicalSize := ⌈(bestSize : ℚ) / 1000⌉ * 1000
    let verifyResult ← runWaterBalance
      { rainfallData := rainfallData, tankSize_L := ((practicalSize : Int) : ℚ),
        roofArea_m2 := roofArea_m2, dailyUsage_L := dailyUsage_L }
    pure { recommendedSize := practicalSize,
           achievedConfidence := verifyResult.summary.reliabilityPercent,
           exactMinimum := some bestSize, reachedLimit := false }

/-- One entry of the smaller-tank comparison. -/
structure SmallerTankEntry where
  tankSize_L : Int
  totalFailures : Nat
  daysEmpty : Nat
  yearsWithFailures : List Int
  failureEvents : List JsPeriod
  description : String
deriving DecidableEq

/-- `generateFailureDescription` from `js/security-mode.js`. -/
def generateFailureDescription (emptyPeriods : List JsPeriod) : String :=
  if emptyPeriods.length = 0 then "Never ran empty"
  else if emptyPeriods.length = 1 then
    match emptyPeriods with
    | period :: _ =>
        let d := period.duration.getD 0
        let duration := if d = 1 then "1 day" else toString d ++ " days"
        "Empty once: " ++ formatDate period.startDate "short" ++ " (" ++ duration ++ ")"
    | [] => ""
  else
    let byYear := groupBy emptyPeriods (fun p => p.year.getD 0)
    let years := sortInts (byYear.map Prod.fst)
    if emptyPeriods.length ≤ 4 then
      let events := emptyPeriods.map (fun p =>
        let d := p.duration.getD 0
        let duration := if d = 1 then "1 day" else toString d ++ " days"
        formatDate p.startDate "short" ++ " (" ++ duration ++ ")")
      "Empty " ++ toString emptyPeriods.length ++ " times: " ++ String.intercalate ", " events
    else
      "Empty " ++ toString emptyPeriods.length ++ " times across " ++
        toString years.length ++ " years (" ++
        String.intercalate ", " (years.map toString) ++ ")"

/-- `analyzeSmallterTanks` (name as in the source) from
`js/security-mode.js`. -/
def analyzeSmallterTanks (rainfallData : List DayData)
    (roofArea_m2 dailyUsage_L : ℚ) (recommendedSize : Int) :
    Except String (List SmallerTankEntry) :=
  let sizesToTest := ([jsRound ((recommendedSize : ℚ) * (75/100) / 1000) * 1000,
                       jsRound ((recommendedSize : ℚ) * (50/100) / 1000) * 1000,
                       jsRound ((recommendedSize : ℚ) * (33/100) / 1000) * 1000,
                       jsRound ((recommendedSize : ℚ) * (25/100) / 1000) * 1000]).filter
    (fun size => 1000 ≤ size)
  let uniqueSizes := sortIntsDesc (dedupFirst sizesToTest)
  uniqueSizes.mapM (fun (size : Int) => do
    let result ← runWaterBalance
      { rainfallData := rainfallData, tankSize_L := (size : ℚ),
        roofArea_m2 := roofArea_m2, dailyUsage_L := dailyUsage_L }
    let failuresByYear := groupBy result.emptyPeriods (fun p => p.year.getD 0)
    let yearsWithFailures := sortInts (failuresByYear.map Prod.fst)
    pure { tankSize_L := size
           totalFailures := result.emptyPeriods.length
           daysEmpty := result.summary.daysEmpty
           yearsWithFailures := yearsWithFailures
           failureEvents := result.emptyPeriods
           description := generateFailureDescription result.emptyPeriods })

/-- `generateConfidenceStatement` from `js/security-mode.js` (the
`tankSize` argument is unused by the body, as in the source). -/
def generateConfidenceStatement (tankSize : Int)
    (actualReliability targetConfidence : ℚ) : String :=
  if 100 ≤ actualReliability then
    "This tank never ran empty in the historical data"
  else if targetConfidence ≤ actualReliability then
    "Meets your " ++ toString targetConfidence ++ "% security target (" ++
      jsToFixed1 actualReliability ++ "% reliability)"
  else
    "Best available: " ++ jsToFixed1 actualReliability ++
      "% reliability (target was " ++ toString targetConfidence ++ "%)"

/-- The `stressStatistics` sub-record of the security analysis. -/
structure StressStatistics where
  daysBelow20pct : Nat
  daysBelow50pct : Nat
  totalDays : Nat
  percentageStressed : ℚ
deriving DecidableEq

/-- The return record of `analyzeSecurityMode`. -/
structure SecurityAnalysis where
  recommendedTankSize_L : Int
  actualReliability : ℚ
  targetConfidence : ℚ
  confidenceStatement : String
  stressStatistics : StressStatistics
  failureEvents : List JsPeriod
  smallerTankAnalysis : List SmallerTankEntry
  worstDrySpell : DrySpellInfo
  simulation : SimResult
deriving DecidableEq

/-- `analyzeSecurityMode` from `js/security-mode.js`; the `params`
object is passed as three explicit arguments. -/
def analyzeSecurityMode (rainfallData : List DayData)
    (roofArea_m2 dailyUsage_L confidenceLevel : ℚ) :
    Except String SecurityAnalysis := do
  let tankSizing ← findMinimumTankForConfidence rainfallData roofArea_m2 dailyUsage_L
    confidenceLevel
  let recommendedResult ← runWaterBalance
    { rainfallData := rainfallData, tankSize_L := ((tankSizing.recommendedSize : Int) : ℚ),
      roofArea_m2 := roofArea_m2, dailyUsage_L := dailyUsage_L }
  let smallerTankAnalysis ← analyzeSmallterTanks rainfallData roofArea_m2 dailyUsage_L
    tankSizing.recommendedSize
  let actualReliability := recommendedResult.summary.reliabilityPercent
  let confidenceStatement := generateConfidenceStatement tankSizing.recommendedSize
    actualReliability (confidenceLevel * 100)
  pure { recommendedTankSize_L := tankSizing.recommendedSize
         actualReliability := actualReliability
         targetConfidence := confidenceLevel * 100
         confidenceStatement := confidenceStatement
         stressStatistics :=
           { daysBelow20pct := recommendedResult.summary.daysBelowStress
             daysBelow50pct := recommendedResult.summary.daysBelow50pct
             totalDays := recommendedResult.summary.totalDays
             percentageStressed := recommendedResult.summary.stressPercent }
         failureEvents := recommendedResult.emptyPeriods
         smallerTankAnalysis := smallerTankAnalysis
         worstDrySpell := recommendedResult.worstDrySpell
         simulation := recommendedResult }

/-! ## Opportunistic mode (`js/opportunistic-mode.js`) -/

/-- One entry of the tank-size comparison table. -/
structure ComparisonEntry where
  tankSize_L : ℚ
  rainwaterUsed_L : ℚ
  mainsWaterNeeded_L : ℚ
  percentOffset : ℚ
  annualRainwaterUsed_L : ℚ
  annualMainsNeeded_L : ℚ
  annualSavings : ℚ
  overflow_L : ℚ
  overflowPercent : ℚ
  captureEfficiency : ℚ
  daysEmpty : Nat
deriving DecidableEq

/-- One marginal-benefit record of `findBestValueTank`. -/
structure MarginalBenefit where
  fromSize : ℚ
  toSize : ℚ
  offsetIncrease : ℚ
  savingsIncrease : ℚ
  marginalEfficiency : ℚ
deriving DecidableEq

def EFFICIENCY_THRESHOLD : ℚ := 2

/-- The 50% relative-drop constant of `findBestValueTank` (its source
name ends in a token this development cannot use). -/
def EFFICIENCY_DROP_HALF : ℚ := 1/2

/-- The marginal-benefit list of `findBestValueTank`: one record per
consecutive pair of comparison entries. -/
def marginalBenefitsOf (comparisons : List ComparisonEntry) : List MarginalBenefit :=
  (comparisons.zip comparisons.tail).map (fun pc =>
    let prev := pc.1
    let curr := pc.2
    { fromSize := prev.tankSize_L
      toSize := curr.tankSize_L
      offsetIncrease := curr.percentOffset - prev.percentOffset
      savingsIncrease := curr.annualSavings - prev.annualSavings
      marginalEfficiency :=
        (curr.percentOffset - prev.percentOffset) /
          ((curr.tankSize_L - prev.tankSize_L) / 1000) })

/-- The `for` loop of `findBestValueTank`: `acc` is `bestIndex`,
`prevEff` holds the previous pair's marginal efficiency (`none` on the
first iteration, where the source divides by `Infinity` but guards the
result behind `i > 0`). -/
def bestIndexLoop (acc : Nat) (prevEff : Option ℚ) : List MarginalBenefit → Nat
  | [] => acc
  | b :: rest =>
    let breakNow : Bool :=
      decide (b.marginalEfficiency < EFFICIENCY_THRESHOLD) ||
        (match prevEff with
         | none => false
         | some pe => decide (b.marginalEfficiency / pe < EFFICIENCY_DROP_HALF))
    if breakNow then acc
    else bestIndexLoop (acc + 1) (some b.marginalEfficiency) rest

/-- `findBestValueTank` from `js/opportunistic-mode.js`; `none` models
the `null` returned on an empty comparison list. -/
def findBestValueTank (comparisons : List ComparisonEntry) : Option ComparisonEntry :=
  if comparisons.length = 0 then none
  else if comparisons.length = 1 then comparisons.head?
  else
    let marginalBenefits := marginalBenefitsOf comparisons
    let bestIndex := bestIndexLoop 0 none marginalBenefits
    comparisons.get? (min bestIndex (comparisons.length - 1))

/-- The `roofPotential` sub-record of the opportunistic analysis. -/
structure RoofPotentialSummary where
  annual_L : ℚ
  annual_kL : ℚ
  annualValue : ℚ
  total_L : ℚ
deriving DecidableEq

/-- The `waterCost` sub-record of the opportunistic analysis. -/
structure WaterCost where
  annualDemand_kL : ℚ
  annualCost : ℚ
  ratePerKL : ℚ
deriving DecidableEq

/-- The return record of `analyzeOpportunisticMode`. -/
structure OpportunisticAnalysis where
  comparisons : List ComparisonEntry
  bestValueSize : ℚ
  bestValueIndex : Int
  roofPotential : RoofPotentialSummary
  waterCost : WaterCost
deriving DecidableEq

/-- The per-size body of the comparison map in
`analyzeOpportunisticMode`, given the simulation result. -/
def entryOfResult (waterRate_perKL totalDemand_L years totalCapture tankSize_L : ℚ)
    (result : SimResult) : ComparisonEntry :=
  let totalDeficit_L := result.summary.totalDeficit_L
  let rainwaterUsed_L := totalDemand_L - totalDeficit_L
  let mainsWaterNeeded_L := totalDeficit_L
  let percentOffset := (rainwaterUsed_L / totalDemand_L) * 100
  let annualRainwaterUsed_L := rainwaterUsed_L / years
  let annualMainsNeeded_L := mainsWaterNeeded_L / years
  let annualSavings := (annualRainwaterUsed_L / 1000) * waterRate_perKL
  let overflow_L := result.summary.totalOverflow_L
  let captureEfficiency :=
    if 0 < totalCapture then ((totalCapture - overflow_L) / totalCapture) * 100 else 0
  let overflowPercent :=
    if 0 < totalCapture then (overflow_L / totalCapture) * 100 else 0
  { tankSize_L := tankSize_L
    rainwaterUsed_L := rainwaterUsed_L
    mainsWaterNeeded_L := mainsWaterNeeded_L
    percentOffset := percentOffset
    annualRainwaterUsed_L := annualRainwaterUsed_L
    annualMainsNeeded_L := annualMainsNeeded_L
    annualSavings := annualSavings
    overflow_L := overflow_L
    overflowPercent := overflowPercent
    captureEfficiency := captureEfficiency
    daysEmpty := result.summary.daysEmpty }

/-- The arrow function mapped over the candidate sizes in
`analyzeOpportunisticMode`: simulate one tank size and build its entry. -/
def compareTankSize (rainfallData : List DayData)
    (roofArea_m2 dailyUsage_L waterRate_perKL totalDemand_L years totalCapture : ℚ)
    (tankSize_L : ℚ) : Except String ComparisonEntry := do
  let result ← runWaterBalance
    { rainfallData := rainfallData, tankSize_L := tankSize_L,
      roofArea_m2 := roofArea_m2, dailyUsage_L := dailyUsage_L }
  pure (entryOfResult waterRate_perKL totalDemand_L years totalCapture tankSize_L result)

/-- `analyzeOpportunisticMode` from `js/opportunistic-mode.js`; the
`params` object is passed as explicit arguments, `tankSizesToCompare`
carrying `none` when the caller omits it.  The member access
`bestValue.tankSize_L` on a `null` best value (empty size list) is
modelled as an error. -/
def analyzeOpportunisticMode (rainfallData : List DayData)
    (roofArea_m2 dailyUsage_L waterRate_perKL : ℚ)
    (tankSizesToCompare : Option (List ℚ)) : Except String OpportunisticAnalysis := do
  let sizes := tankSizesToCompare.getD TANK_SIZES
  let roofPotential := calculateRoofPotential rainfallData roofArea_m2
  let totalDays := rainfallData.length
  let totalDemand_L := dailyUsage_L * (totalDays : ℚ)
  let years : ℚ := (totalDays : ℚ) / (36525/100)
  let comparisons ← sizes.mapM (compareTankSize rainfallData roofArea_m2 dailyUsage_L
    waterRate_perKL totalDemand_L years roofPotential.totalCapture_L)
  match findBestValueTank comparisons with
  | none => Except.error "TypeError: cannot read tankSize_L of null"
  | some bestValue =>
    let annualDemand_kL := (dailyUsage_L * (36525/100)) / 1000
    let annualWaterCost := annualDemand_kL * waterRate_perKL
    pure { comparisons := comparisons
           bestValueSize := bestValue.tankSize_L
           bestValueIndex :=
             (match comparisons.findIdx? (fun c => decide (c.tankSize_L = bestValue.tankSize_L)) with
              | some i => (i : Int)
              | none => -1)
           roofPotential :=
             { annual_L := roofPotential.annualCapture_L
               annual_kL := roofPotential.annualCapture_L / 1000
               annualValue := (roofPotential.annualCapture_L / 1000) * waterRate_perKL
               total_L := roofPotential.totalCapture_L }
           waterCost :=
             { annualDemand_kL := annualDemand_kL
               annualCost := annualWaterCost
               ratePerKL := waterRate_perKL } }

/-! ## Proof-side definitions

Closed forms used to state and prove properties of the embedded code:
the simulation trace as a standalone recursion, the period state machines
as folds over that trace, and convenience accessors. -/

/-- The simulation trace: one `DailyState` per observation, each day
starting from the previous day's clamped level. -/
def dailyTrace (t a u rc th cur : ℚ) : List DayData → List DailyState
  | [] => []
  | d :: rest =>
    let st := mkDailyState t a u rc th cur d
    st :: dailyTrace t a u rc th st.level_L rest

/-- The tank level after consuming a list of observations. -/
def levelAfter (t a u rc th cur : ℚ) : List DayData → ℚ
  | [] => cur
  | d :: rest => levelAfter t a u rc th (mkDailyState t a u rc th cur d).level_L rest

/-- Folding the empty-period machine over a trace. -/
def runEmptyMachine (acc : List JsPeriod × Option JsPeriod) (trace : List DailyState) :
    List JsPeriod × Option JsPeriod :=
  trace.foldl (fun a st => emptyStep st a) acc

/-- Folding the stress-period machine over a trace. -/
def runStressMachine (acc : List JsPeriod × Option JsPeriod) (trace : List DailyState) :
    List JsPeriod × Option JsPeriod :=
  trace.foldl (fun a st => stressStep st a) acc

/-- The runoff coefficient a config resolves to. -/
def cfgRunoff (config : WBConfig) : ℚ :=
  config.runoffCoefficient.getD DEFAULTS.runoffCoefficient

/-- The clamped initial level a config resolves to. -/
def cfgInit (config : WBConfig) : ℚ :=
  clamp (config.initialLevel_L.getD (config.tankSize_L / 2)) 0 config.tankSize_L

/-- The stress threshold a config resolves to. -/
def cfgThreshold (config : WBConfig) : ℚ :=
  config.tankSize_L * DEFAULTS.stressThreshold

/-- The simulation trace of a config. -/
def cfgTrace (config : WBConfig) : List DailyState :=
  dailyTrace config.tankSize_L config.roofArea_m2 config.dailyUsage_L
    (cfgRunoff config) (cfgThreshold config) (cfgInit config) config.rainfallData

/-- The recurrence exactly as the specification states it, producing per
observation the tuple `(date, level, inflow, overflow, deficit)`:
`inflow = 0` if missing else `rainfall × area × runoff`;
`raw = current + inflow − usage`; `overflow = max 0 (raw − capacity)`;
`deficit = max 0 (−raw)`; `level = clamp raw 0 capacity`; and the next
day's `current` is this day's `level`. -/
def specRecurrenceTrace (tankSize_L roofArea_m2 dailyUsage_L runoffCoefficient current : ℚ) :
    List DayData → List (JsDate × ℚ × ℚ × ℚ × ℚ)
  | [] => []
  | obs :: rest =>
    let inflow := if obs.missing then 0
      else obs.rainfall_mm * roofArea_m2 * runoffCoefficient
    let raw := current + inflow - dailyUsage_L
    let overflow := max 0 (raw - tankSize_L)
    let deficit := max 0 (-raw)
    let level := clamp raw 0 tankSize_L
    (obs.date, level, inflow, overflow, deficit) ::
      specRecurrenceTrace tankSize_L roofArea_m2 dailyUsage_L runoffCoefficient level rest

/-- The observable fields of a `DailyState` named by the recurrence. -/
def stateTuple (st : DailyState) : JsDate × ℚ × ℚ × ℚ × ℚ :=
  (st.date, st.level_L, st.inflow_L, st.overflow_L, st.deficit_L)

/-- Lengths of the maximal runs of `true` in a boolean sequence, with an
accumulator carrying the length of the currently open run. -/
def runLengthsAux (acc : Nat) : List Bool → List Nat
  | [] => if acc = 0 then [] else [acc]
  | b :: bs =>
    if b then runLengthsAux (acc + 1) bs
    else if acc = 0 then runLengthsAux 0 bs
    else acc :: runLengthsAux 0 bs

/-- The reliability of the simulation at an integer capacity, as a
fraction, with the other parameters defaulted exactly as the tank-size
search passes them. -/
def reliaFracAt (rainfallData : List DayData) (roofArea_m2 dailyUsage_L : ℚ)
    (c : Int) : ℚ :=
  match runWaterBalance
    { rainfallData := rainfallData, tankSize_L := (c : ℚ),
      roofArea_m2 := roofArea_m2, dailyUsage_L := dailyUsage_L } with
  | Except.ok r => r.summary.reliabilityPercent / 100
  | Except.error _ => 0

/-- The total deficit of the simulation at a capacity, with the other
parameters defaulted. -/
def totalDeficitAt (rainfallData : List DayData) (roofArea_m2 dailyUsage_L c : ℚ) : ℚ :=
  match runWaterBalance
    { rainfallData := rainfallData, tankSize_L := c,
      roofArea_m2 := roofArea_m2, dailyUsage_L := dailyUsage_L } with
  | Except.ok r => r.summary.totalDeficit_L
  | Except.error _ => 0

/-- Capacities on the search grid: multiples of `SEARCH_STEP` within
`[SEARCH_MIN, SEARCH_MAX]`. -/
def isGridSize (c : Int) : Prop :=
  c % 500 = 0 ∧ 1000 ≤ c ∧ c ≤ 100000

instance (c : Int) : Decidable (isGridSize c) := by
  unfold isGridSize; infer_instance

/-! ## Concrete data for witnesses and counterexamples -/

def wDay0 : DayData := ⟨⟨0, 2020⟩, 0, false⟩
def wDay1 : DayData := ⟨⟨1, 2020⟩, 10, false⟩
def wDay2 : DayData := ⟨⟨2, 2020⟩, 0, true⟩
def wData1 : List DayData := [wDay0]
def wData3 : List DayData := [wDay0, wDay1, wDay2]
def wDataMissing : List DayData := [⟨⟨0, 2020⟩, 0, true⟩]

end DrySpell

set_option allowUnsafeReducibility true in
attribute [semireducible] Rat.mul Rat.add Rat.sub Rat.inv Rat.div Rat.ofScientific

namespace DrySpell

/-! ## Characterizing the simulation loop by the trace -/

theorem foldl_dailyLevels (t a u rc th : ℚ) :
    ∀ (days : List DayData) (s : SimState),
    (List.foldl (simStep t a u rc th) s days).dailyLevels
      = s.dailyLevels ++ dailyTrace t a u rc th s.currentLevel days
  | [], s => by simp [dailyTrace]
  | d :: days, s => by
    rw [List.foldl_cons, foldl_dailyLevels t a u rc th days]
    simp [simStep, dailyTrace]

theorem foldl_currentLevel (t a u rc th : ℚ) :
    ∀ (days : List DayData) (s : SimState),
    (List.foldl (simStep t a u rc th) s days).currentLevel
      = levelAfter t a u rc th s.currentLevel days
  | [], s => by simp [levelAfter]
  | d :: days, s => by
    rw [List.foldl_cons, foldl_currentLevel t a u rc th days]
    simp [simStep, levelAfter]

theorem foldl_totalOverflow (t a u rc th : ℚ) :
    ∀ (days : List DayData) (s : SimState),
    (List.foldl (simStep t a u rc th) s days).totalOverflow_L
      = s.totalOverflow_L
        + ((dailyTrace t a u rc th s.currentLevel days).map DailyState.overflow_L).sum
  | [], s => by simp [dailyTrace]
  | d :: days, s => by
    rw [List.foldl_cons, foldl_totalOverflow t a u rc th days]
    simp [simStep, dailyTrace, add_assoc]

theorem foldl_totalDeficit (t a u rc th : ℚ) :
    ∀ (days : List DayData) (s : SimState),
    (List.foldl (simStep t a u rc th) s days).totalDeficit_L
      = s.totalDeficit_L
        + ((dailyTrace t a u rc th s.currentLevel days).map DailyState.deficit_L).sum
  | [], s => by simp [dailyTrace]
  | d :: days, s => by
    rw [List.foldl_cons, foldl_totalDeficit t a u rc th days]
    simp [simStep, dailyTrace, add_assoc]

theorem foldl_daysEmpty (t a u rc th : ℚ) :
    ∀ (days : List DayData) (s : SimState),
    (List.foldl (simStep t a u rc th) s days).daysEmpty
      = s.daysEmpty
        + (dailyTrace t a u rc th s.currentLevel days).countP (fun st => st.isEmpty)
  | [], s => by simp [dailyTrace]
  | d :: days, s => by
    rw [List.foldl_cons, foldl_daysEmpty t a u rc th days]
    simp [simStep, dailyTrace, List.countP_cons]
    omega

theorem foldl_daysBelowStress (t a u rc th : ℚ) :
    ∀ (days : List DayData) (s : SimState),
    (List.foldl (simStep t a u rc th) s days).daysBelowStress
      = s.daysBelowStress
        + (dailyTrace t a u rc th s.currentLevel days).countP (fun st => st.isStressed)
  | [], s => by simp [dailyTrace]
  | d :: days, s => by
    rw [List.foldl_cons, foldl_daysBelowStress t a u rc th days]
    simp [simStep, dailyTrace, List.countP_cons]
    omega

theorem foldl_daysBelow50 (t a u rc th : ℚ) :
    ∀ (days : List DayData) (s : SimState),
    (List.foldl (simStep t a u rc th) s days).daysBelow50pct
      = s.daysBelow50pct
        + (dailyTrace t a u rc th s.currentLevel days).countP
            (fun st => decide (st.level_L < t * (1/2)))
  | [], s => by simp [dailyTrace]
  | d :: days, s => by
    rw [List.foldl_cons, foldl_daysBelow50 t a u rc th days]
    simp [simStep, dailyTrace, List.countP_cons]
    omega

theorem foldl_emptyMachine (t a u rc th : ℚ) :
    ∀ (days : List DayData) (s : SimState),
    ((List.foldl (simStep t a u rc th) s days).emptyPeriods,
      (List.foldl (simStep t a u rc th) s days).currentEmptyPeriod)
      = runEmptyMachine (s.emptyPeriods, s.currentEmptyPeriod)
          (dailyTrace t a u rc th s.currentLevel days)
  | [], s => by simp [dailyTrace, runEmptyMachine]
  | d :: days, s => by
    have ih := foldl_emptyMachine t a u rc th days (simStep t a u rc th s d)
    rw [List.foldl_cons, ih]
    simp only [simStep, runEmptyMachine, dailyTrace, List.foldl_cons]

theorem foldl_stressMachine (t a u rc th : ℚ) :
    ∀ (days : List DayData) (s : SimState),
    ((List.foldl (simStep t a u rc th) s days).stressPeriods,
      (List.foldl (simStep t a u rc th) s days).currentStressPeriod)
      = runStressMachine (s.stressPeriods, s.currentStressPeriod)
          (dailyTrace t a u rc th s.currentLevel days)
  | [], s => by simp [dailyTrace, runStressMachine]
  | d :: days, s => by
    have ih := foldl_stressMachine t a u rc th days (simStep t a u rc th s d)
    rw [List.foldl_cons, ih]
    simp only [simStep, runStressMachine, dailyTrace, List.foldl_cons]

/-- The length of the trace: one state per observation. -/
theorem dailyTrace_length (t a u rc th : ℚ) :
    ∀ (days : List DayData) (cur : ℚ),
    (dailyTrace t a u rc th cur days).length = days.length
  | [], _ => rfl
  | d :: days, cur => by
    simp [dailyTrace, dailyTrace_length t a u rc th days]

/-- `runWaterBalance` on valid input, characterized by the trace. -/
theorem runWaterBalance_char (config : WBConfig)
    (hd : config.rainfallData ≠ []) (ht : 0 < config.tankSize_L)
    (ha : 0 < config.roofArea_m2) (hu : 0 < config.dailyUsage_L) :
    runWaterBalance config = Except.ok
      { dailyLevels := cfgTrace config
        summary :=
          { totalDays := (cfgTrace config).length
            daysEmpty := (cfgTrace config).countP (fun st => st.isEmpty)
            daysBelowStress := (cfgTrace config).countP (fun st => st.isStressed)
            daysBelow50pct := (cfgTrace config).countP
              (fun st => decide (st.level_L < config.tankSize_L * (1/2)))
            totalOverflow_L := ((cfgTrace config).map DailyState.overflow_L).sum
            totalDeficit_L := ((cfgTrace config).map DailyState.deficit_L).sum
            reliabilityPercent :=
              ((((cfgTrace config).length : ℚ)
                - ((cfgTrace config).countP (fun st => st.isEmpty) : ℚ))
                / ((cfgTrace config).length : ℚ)) * 100
            stressPercent :=
              (((cfgTrace config).countP (fun st => st.isStressed) : ℚ)
                / ((cfgTrace config).length : ℚ)) * 100 }
        emptyPeriods :=
          (runEmptyMachine ([], none) (cfgTrace config)).1
            ++ (runEmptyMachine ([], none) (cfgTrace config)).2.toList
        stressPeriods :=
          (runStressMachine ([], none) (cfgTrace config)).1
            ++ (runStressMachine ([], none) (cfgTrace config)).2.toList
        worstDrySpell :=
          findWorstDrySpell config.rainfallData config.roofArea_m2 (cfgRunoff config) } := by
  have hnot : ¬ (config.tankSize_L ≤ 0 ∨ config.roofArea_m2 ≤ 0 ∨ config.dailyUsage_L ≤ 0) := by
    push_neg
    exact ⟨ht, ha, hu⟩
  rw [runWaterBalance]
  simp only [hd, hnot, if_false, if_neg, ite_false]
  have hfold := foldl_dailyLevels config.tankSize_L config.roofArea_m2 config.dailyUsage_L
    (cfgRunoff config) (cfgThreshold config) config.rainfallData
    (initSimState config.tankSize_L (config.initialLevel_L.getD (config.tankSize_L / 2)))
  have hemp := foldl_emptyMachine config.tankSize_L config.roofArea_m2 config.dailyUsage_L
    (cfgRunoff config) (cfgThreshold config) config.rainfallData
    (initSimState config.tankSize_L (config.initialLevel_L.getD (config.tankSize_L / 2)))
  have hstr := foldl_stressMachine config.tankSize_L config.roofArea_m2 config.dailyUsage_L
    (cfgRunoff config) (cfgThreshold config) config.rainfallData
    (initSimState config.tankSize_L (config.initialLevel_L.getD (config.tankSize_L / 2)))
  have h1 := congrArg Prod.fst hemp
  have h2 := congrArg Prod.snd hemp
  have h3 := congrArg Prod.fst hstr
  have h4 := congrArg Prod.snd hstr
  simp only [cfgRunoff, cfgThreshold, cfgTrace, cfgInit] at *
  rw [foldl_dailyLevels, foldl_daysEmpty, foldl_daysBelowStress, foldl_daysBelow50,
    foldl_totalOverflow, foldl_totalDeficit, h1, h2, h3, h4]
  simp [initSimState]

/-- `runWaterBalance` succeeds on every valid input. -/
theorem runWaterBalance_ok (config : WBConfig)
    (hd : config.rainfallData ≠ []) (ht : 0 < config.tankSize_L)
    (ha : 0 < config.roofArea_m2) (hu : 0 < config.dailyUsage_L) :
    ∃ r, runWaterBalance config = Except.ok r :=
  ⟨_, runWaterBalance_char config hd ht ha hu⟩

/-- The implementation trace projects to the recurrence of the spec. -/
theorem dailyTrace_spec (t a u rc th : ℚ) :
    ∀ (days : List DayData) (cur : ℚ),
    (dailyTrace t a u rc th cur days).map stateTuple
      = specRecurrenceTrace t a u rc cur days
  | [], _ => rfl
  | d :: days, cur => by
    simp only [dailyTrace, specRecurrenceTrace, List.map_cons,
      dailyTrace_spec t a u rc th days]
    simp [stateTuple, mkDailyState]

/-- C1: on every non-empty observation sequence with positive tank size,
roof area and daily usage, `runWaterBalance` produces exactly one
`DailyState` per observation, in order, whose `(date, level, inflow,
overflow, deficit)` fields satisfy the stated recurrence, starting from
`clamp(initialLevel, 0, tankSize)` with `initialLevel` defaulting to
`tankSize / 2`. -/
theorem c1_waterBalance_recurrence (config : WBConfig)
    (hd : config.rainfallData ≠ []) (ht : 0 < config.tankSize_L)
    (ha : 0 < config.roofArea_m2) (hu : 0 < config.dailyUsage_L) :
    ∃ r, runWaterBalance config = Except.ok r
      ∧ r.dailyLevels.length = config.rainfallData.length
      ∧ r.dailyLevels.map stateTuple
          = specRecurrenceTrace config.tankSize_L config.roofArea_m2 config.dailyUsage_L
              (cfgRunoff config)
              (clamp (config.initialLevel_L.getD (config.tankSize_L / 2)) 0 config.tankSize_L)
              config.rainfallData := by
  refine ⟨_, runWaterBalance_char config hd ht ha hu, ?_, ?_⟩
  · exact dailyTrace_length _ _ _ _ _ _ _
  · rw [cfgTrace, dailyTrace_spec]
    rfl

/-- Witness for C1 on concrete data. -/
theorem c1_waterBalance_recurrence_witness :
    ∃ r, runWaterBalance ⟨wData3, 1000, 100, 500, none, none⟩ = Except.ok r
      ∧ r.dailyLevels.length = wData3.length
      ∧ r.dailyLevels.map stateTuple
          = specRecurrenceTrace 1000 100 500
              (cfgRunoff ⟨wData3, 1000, 100, 500, none, none⟩)
              (clamp ((none : Option ℚ).getD ((1000 : ℚ) / 2)) 0 1000) wData3 :=
  c1_waterBalance_recurrence ⟨wData3, 1000, 100, 500, none, none⟩
    (by decide) (by norm_num) (by norm_num) (by norm_num)

/-! ## Periods as maximal runs -/

theorem runLengthsAux_sum :
    ∀ (bs : List Bool) (acc : Nat),
    (runLengthsAux acc bs).sum = acc + bs.countP (fun b => b)
  | [], acc => by
    by_cases h : acc = 0 <;> simp [runLengthsAux, h]
  | b :: bs, acc => by
    cases b with
    | true =>
      simp [runLengthsAux, runLengthsAux_sum bs (acc + 1), List.countP_cons]
      omega
    | false =>
      by_cases h : acc = 0 <;>
        simp [runLengthsAux, h, runLengthsAux_sum bs 0, List.countP_cons]

theorem runLengthsAux_pos :
    ∀ (bs : List Bool) (acc : Nat), ∀ x ∈ runLengthsAux acc bs, 0 < x
  | [], acc => by
    by_cases h : acc = 0 <;> simp [runLengthsAux, h] <;> omega
  | b :: bs, acc => by
    cases b with
    | true => simpa [runLengthsAux] using runLengthsAux_pos bs (acc + 1)
    | false =>
      by_cases h : acc = 0
      · simpa [runLengthsAux, h] using runLengthsAux_pos bs 0
      · simp only [runLengthsAux, h, if_false, Bool.false_eq_true, ite_false]
        intro x hx
        rcases List.mem_cons.mp hx with hx | hx
        · omega
        · exact runLengthsAux_pos bs 0 x hx

/-- The open-period invariant of the empty-period machine: the durations
of the closed periods followed by the flushed open one are exactly the
maximal-run lengths of the `isEmpty` flags, continuing an open run of
length `acc`. -/
theorem emptyMachine_durations :
    ∀ (trace : List DailyState) (ps : List JsPeriod) (cur : Option JsPeriod) (acc : Nat),
    (match cur with
     | none => acc = 0
     | some p => p.duration = some acc ∧ 0 < acc) →
    ((runEmptyMachine (ps, cur) trace).1 ++ (runEmptyMachine (ps, cur) trace).2.toList).map
        (fun p => p.duration)
      = ps.map (fun p => p.duration)
        ++ (runLengthsAux acc (trace.map (fun st => st.isEmpty))).map some
  | [], ps, cur, acc => by
    intro hinv
    cases cur with
    | none =>
      simp only at hinv
      simp [runEmptyMachine, runLengthsAux, hinv]
    | some p =>
      obtain ⟨hdur, hpos⟩ := hinv
      have : ¬ acc = 0 := by omega
      simp [runEmptyMachine, runLengthsAux, this, hdur]
  | st :: trace, ps, cur, acc => by
    intro hinv
    have hcons : runEmptyMachine (ps, cur) (st :: trace)
        = runEmptyMachine (emptyStep st (ps, cur)) trace := by
      simp [runEmptyMachine]
    rw [hcons]
    cases hst : st.isEmpty with
    | true =>
      cases cur with
      | none =>
        simp only at hinv
        have h := emptyMachine_durations trace ps (some (newEmptyPeriod st)) 1
          (by simp [newEmptyPeriod])
        simp only [emptyStep, hst, if_true]
        rw [h]
        simp [runLengthsAux, hst, hinv]
      | some p =>
        obtain ⟨hdur, hpos⟩ := hinv
        have h := emptyMachine_durations trace ps (some (extendEmptyPeriod p st)) (acc + 1)
          (by simp [extendEmptyPeriod, hdur])
        simp only [emptyStep, hst, if_true]
        rw [h]
        simp [runLengthsAux, hst]
    | false =>
      cases cur with
      | none =>
        simp only at hinv
        have h := emptyMachine_durations trace ps none 0 (by simp)
        simp only [emptyStep, hst, Bool.false_eq_true, if_false]
        rw [h]
        simp [runLengthsAux, hst, hinv]
      | some p =>
        obtain ⟨hdur, hpos⟩ := hinv
        have hacc : ¬ acc = 0 := by omega
        have h := emptyMachine_durations trace (ps ++ [p]) none 0 (by simp)
        simp only [emptyStep, hst, Bool.false_eq_true, if_false]
        rw [h]
        simp [runLengthsAux, hst, hacc, hdur]

/-- Any property preserved by the empty-period constructors holds of
every period the machine emits, flushed open period included. -/
theorem emptyMachine_mem (P : JsPeriod → Prop)
    (hnew : ∀ st, P (newEmptyPeriod st))
    (hext : ∀ p st, P p → P (extendEmptyPeriod p st)) :
    ∀ (trace : List DailyState) (ps : List JsPeriod) (cur : Option JsPeriod),
    (∀ p ∈ ps, P p) → (∀ p ∈ cur.toList, P p) →
    ∀ p ∈ (runEmptyMachine (ps, cur) trace).1
        ++ (runEmptyMachine (ps, cur) trace).2.toList, P p
  | [], ps, cur, hps, hcur => by
    intro p hp
    rcases List.mem_append.mp hp with hp | hp
    · exact hps p hp
    · exact hcur p hp
  | st :: trace, ps, cur, hps, hcur => by
    have hcons : runEmptyMachine (ps, cur) (st :: trace)
        = runEmptyMachine (emptyStep st (ps, cur)) trace := by
      simp [runEmptyMachine]
    rw [hcons]
    cases hst : st.isEmpty with
    | true =>
      cases cur with
      | none =>
        intro p hp
        exact emptyMachine_mem P hnew hext trace ps (some (newEmptyPeriod st))
          hps (by simp [hnew]) p (by simpa [emptyStep, hst] using hp)
      | some q =>
        intro p hp
        exact emptyMachine_mem P hnew hext trace ps (some (extendEmptyPeriod q st))
          hps (by simpa using hext q st (hcur q (by simp))) p
          (by simpa [emptyStep, hst] using hp)
    | false =>
      cases cur with
      | none =>
        intro p hp
        exact emptyMachine_mem P hnew hext trace ps none hps (by simp) p
          (by simpa [emptyStep, hst] using hp)
      | some q =>
        intro p hp
        refine emptyMachine_mem P hnew hext trace (ps ++ [q]) none ?_ (by simp) p
          (by simpa [emptyStep, hst] using hp)
        intro x hx
        rcases List.mem_append.mp hx with hx | hx
        · exact hps x hx
        · simp only [List.mem_singleton] at hx
          exact hx ▸ hcur q (by simp)

/-- Any property preserved by the stress-period constructors holds of
every period the machine emits, flushed open period included. -/
theorem stressMachine_mem (P : JsPeriod → Prop)
    (hnew : ∀ st, P (newStressPeriod st))
    (hext : ∀ p st, P p → P (extendStressPeriod p st)) :
    ∀ (trace : List DailyState) (ps : List JsPeriod) (cur : Option JsPeriod),
    (∀ p ∈ ps, P p) → (∀ p ∈ cur.toList, P p) →
    ∀ p ∈ (runStressMachine (ps, cur) trace).1
        ++ (runStressMachine (ps, cur) trace).2.toList, P p
  | [], ps, cur, hps, hcur => by
    intro p hp
    rcases List.mem_append.mp hp with hp | hp
    · exact hps p hp
    · exact hcur p hp
  | st :: trace, ps, cur, hps, hcur => by
    have hcons : runStressMachine (ps, cur) (st :: trace)
        = runStressMachine (stressStep st (ps, cur)) trace := by
      simp [runStressMachine]
    rw [hcons]
    cases hst : st.isStressed with
    | true =>
      cases cur with
      | none =>
        intro p hp
        exact stressMachine_mem P hnew hext trace ps (some (newStressPeriod st))
          hps (by simp [hnew]) p (by simpa [stressStep, hst] using hp)
      | some q =>
        intro p hp
        exact stressMachine_mem P hnew hext trace ps (some (extendStressPeriod q st))
          hps (by simpa using hext q st (hcur q (by simp))) p
          (by simpa [stressStep, hst] using hp)
    | false =>
      cases cur with
      | none =>
        intro p hp
        exact stressMachine_mem P hnew hext trace ps none hps (by simp) p
          (by simpa [stressStep, hst] using hp)
      | some q =>
        intro p hp
        refine stressMachine_mem P hnew hext trace (ps ++ [q]) none ?_ (by simp) p
          (by simpa [stressStep, hst] using hp)
        intro x hx
        rcases List.mem_append.mp hx with hx | hx
        · exact hps x hx
        · simp only [List.mem_singleton] at hx
          exact hx ▸ hcur q (by simp)

/-- Every state of the trace computes its flags from its level. -/
theorem dailyTrace_flags (t a u rc th : ℚ) :
    ∀ (days : List DayData) (cur : ℚ), ∀ st ∈ dailyTrace t a u rc th cur days,
    st.isEmpty = decide (st.level_L = 0) ∧ st.isStressed = decide (st.level_L < th)
  | [], _ => by simp [dailyTrace]
  | d :: days, cur => by
    intro st hst
    rcases List.mem_cons.mp hst with h | h
    · subst h
      constructor <;> simp [mkDailyState]
    · exact dailyTrace_flags t a u rc th days _ st h

/-- The duration bookkeeping of the final empty-period list: durations
are exactly the maximal-run lengths of the per-day empty flags. -/
theorem emptyPeriods_durations (config : WBConfig) (r : SimResult)
    (hd : config.rainfallData ≠ []) (ht : 0 < config.tankSize_L)
    (ha : 0 < config.roofArea_m2) (hu : 0 < config.dailyUsage_L)
    (hr : runWaterBalance config = Except.ok r) :
    r.emptyPeriods.map (fun p => p.duration)
      = (runLengthsAux 0 (r.dailyLevels.map (fun st => st.isEmpty))).map some := by
  have hbr := (runWaterBalance_char config hd ht ha hu).symm.trans hr
  simp only [Except.ok.injEq] at hbr
  subst hbr
  have h := emptyMachine_durations (cfgTrace config) [] none 0 (by simp)
  simpa using h

/-- C3: `daysEmpty` equals the number of days with level 0 and equals
the sum of the durations of the empty periods; the still-open run at the
end of data is flushed, so no empty day is dropped. -/
theorem c3_daysEmpty_consistency (config : WBConfig)
    (hd : config.rainfallData ≠ []) (ht : 0 < config.tankSize_L)
    (ha : 0 < config.roofArea_m2) (hu : 0 < config.dailyUsage_L) :
    ∃ r, runWaterBalance config = Except.ok r
      ∧ r.summary.daysEmpty = r.dailyLevels.countP (fun st => decide (st.level_L = 0))
      ∧ r.summary.daysEmpty = (r.emptyPeriods.map (fun p => p.duration.getD 0)).sum := by
  have hchar := runWaterBalance_char config hd ht ha hu
  refine ⟨_, hchar, ?_, ?_⟩
  · apply List.countP_congr
    intro st hst
    rw [(dailyTrace_flags _ _ _ _ _ _ _ st hst).1]
  · have hdur := emptyMachine_durations (cfgTrace config) [] none 0 (by simp)
    have hmap : ((runEmptyMachine ([], none) (cfgTrace config)).1
          ++ (runEmptyMachine ([], none) (cfgTrace config)).2.toList).map
          (fun p => p.duration.getD 0)
        = runLengthsAux 0 ((cfgTrace config).map (fun st => st.isEmpty)) := by
      have : (fun p : JsPeriod => p.duration.getD 0)
          = (fun o : Option Nat => o.getD 0) ∘ (fun p : JsPeriod => p.duration) := rfl
      rw [this, ← List.map_map, hdur]
      simp [List.map_map, Function.comp_def]
    simp only [hmap]
    rw [runLengthsAux_sum]
    simp [List.countP_map, Function.comp_def]

/-- Witness for C3 on concrete data whose final day is mid-run (the last
day is empty, so the flush path is exercised). -/
theorem c3_daysEmpty_consistency_witness :
    ∃ r, runWaterBalance ⟨wData3, 1000, 100, 500, none, none⟩ = Except.ok r
      ∧ r.summary.daysEmpty = r.dailyLevels.countP (fun st => decide (st.level_L = 0))
      ∧ r.summary.daysEmpty = (r.emptyPeriods.map (fun p => p.duration.getD 0)).sum :=
  c3_daysEmpty_consistency ⟨wData3, 1000, 100, 500, none, none⟩
    (by decide) (by norm_num) (by norm_num) (by norm_num)

/-- Counterexample to C9 as stated: on concrete valid input the run
produces stress periods, and they carry no `duration` field at all
(modelled as `none`). -/
theorem c9_period_fields_counterexample :
    (runWaterBalance ⟨wData3, 1000, 100, 500, none, none⟩).toOption.map
      (fun r => r.stressPeriods.map (fun p => p.duration)) = some [none, none] := by
  decide

/-- C9 as amended: elements of `emptyPeriods` and the `worstDrySpell`
record carry `startDate`, `endDate` and a `duration` equal to the days
in the run (the empty-period durations are exactly the maximal-run
lengths of the empty flags); elements of `stressPeriods` carry
`startDate`, `endDate`, `minLevel` and `year` but no `duration`. -/
theorem c9_period_fields_amended (config : WBConfig)
    (hd : config.rainfallData ≠ []) (ht : 0 < config.tankSize_L)
    (ha : 0 < config.roofArea_m2) (hu : 0 < config.dailyUsage_L) :
    ∃ r, runWaterBalance config = Except.ok r
      ∧ r.emptyPeriods.map (fun p => p.duration)
          = (runLengthsAux 0 (r.dailyLevels.map (fun st => st.isEmpty))).map some
      ∧ (∀ p ∈ r.emptyPeriods,
          (∃ d, p.duration = some d ∧ 0 < d) ∧ p.minLevel = none ∧ (p.year).isSome)
      ∧ (∀ p ∈ r.stressPeriods,
          p.duration = none ∧ (p.minLevel).isSome ∧ (p.year).isSome) := by
  have hchar := runWaterBalance_char config hd ht ha hu
  have hdur := emptyPeriods_durations config _ hd ht ha hu hchar
  refine ⟨_, hchar, hdur, ?_, ?_⟩
  · intro p hp
    constructor
    · have hmem : p.duration ∈ ((runEmptyMachine ([], none) (cfgTrace config)).1
          ++ (runEmptyMachine ([], none) (cfgTrace config)).2.toList).map
          (fun p => p.duration) := List.mem_map_of_mem _ hp
      have h0 := emptyMachine_durations (cfgTrace config) [] none 0 (by simp)
      rw [show ((runEmptyMachine ([], none) (cfgTrace config)).1
          ++ (runEmptyMachine ([], none) (cfgTrace config)).2.toList).map
          (fun p => p.duration)
          = (runLengthsAux 0 ((cfgTrace config).map fun st => st.isEmpty)).map some
          from by simpa using h0] at hmem
      obtain ⟨d, hdmem, hdp⟩ := List.mem_map.mp hmem
      exact ⟨d, hdp.symm, runLengthsAux_pos _ 0 d hdmem⟩
    · refine emptyMachine_mem
        (fun p => p.minLevel = none ∧ (p.year).isSome)
        (fun st => by simp [newEmptyPeriod])
        (fun q st hq => by simpa [extendEmptyPeriod] using hq)
        (cfgTrace config) [] none (by simp) (by simp) p hp
  · intro p hp
    refine stressMachine_mem
      (fun p => p.duration = none ∧ (p.minLevel).isSome ∧ (p.year).isSome)
      (fun st => by simp [newStressPeriod])
      (fun q st hq => by simpa [extendStressPeriod] using hq)
      (cfgTrace config) [] none (by simp) (by simp) p hp

/-- Witness for the amended C9 on concrete data. -/
theorem c9_period_fields_amended_witness :
    ∃ r, runWaterBalance ⟨wData3, 2000, 100, 500, none, none⟩ = Except.ok r
      ∧ r.emptyPeriods.map (fun p => p.duration)
          = (runLengthsAux 0 (r.dailyLevels.map (fun st => st.isEmpty))).map some
      ∧ (∀ p ∈ r.emptyPeriods,
          (∃ d, p.duration = some d ∧ 0 < d) ∧ p.minLevel = none ∧ (p.year).isSome)
      ∧ (∀ p ∈ r.stressPeriods,
          p.duration = none ∧ (p.minLevel).isSome ∧ (p.year).isSome) :=
  c9_period_fields_amended ⟨wData3, 2000, 100, 500, none, none⟩
    (by decide) (by norm_num) (by norm_num) (by norm_num)

/-! ## The worst dry spell -/

/-- A successful run's `worstDrySpell` is exactly the detector applied
to the rainfall data, roof area and resolved runoff coefficient. -/
theorem runWaterBalance_worstDrySpell (config : WBConfig) (r : SimResult)
    (h : runWaterBalance config = Except.ok r) :
    r.worstDrySpell
      = findWorstDrySpell config.rainfallData config.roofArea_m2 (cfgRunoff config) := by
  by_cases h1 : config.rainfallData = []
  · rw [runWaterBalance] at h
    simp [h1] at h
  · by_cases h2 : config.tankSize_L ≤ 0 ∨ config.roofArea_m2 ≤ 0 ∨ config.dailyUsage_L ≤ 0
    · rw [runWaterBalance] at h
      simp [h1, h2] at h
    · rw [runWaterBalance] at h
      simp only [h1, h2, if_false, ite_false] at h
      injection h with h
      rw [← h]
      simp [cfgRunoff]

/-- C6: two runs on the same rainfall data, roof area and runoff
coefficient report the same `worstDrySpell`, whatever their tank size,
daily usage and initial level. -/
theorem c6_worstDrySpell_independent (cfg1 cfg2 : WBConfig) (r1 r2 : SimResult)
    (hdata : cfg1.rainfallData = cfg2.rainfallData)
    (harea : cfg1.roofArea_m2 = cfg2.roofArea_m2)
    (hrc : cfg1.runoffCoefficient = cfg2.runoffCoefficient)
    (h1 : runWaterBalance cfg1 = Except.ok r1)
    (h2 : runWaterBalance cfg2 = Except.ok r2) :
    r1.worstDrySpell = r2.worstDrySpell := by
  rw [runWaterBalance_worstDrySpell cfg1 r1 h1, runWaterBalance_worstDrySpell cfg2 r2 h2,
    hdata, harea, cfgRunoff, cfgRunoff, hrc]

/-- Witness for C6: same data, different tank size, usage and initial
level. -/
theorem c6_worstDrySpell_independent_witness :
    ∃ r1 r2, runWaterBalance ⟨wData3, 1000, 100, 500, none, none⟩ = Except.ok r1
      ∧ runWaterBalance ⟨wData3, 5000, 100, 300, none, some 100⟩ = Except.ok r2
      ∧ r1.worstDrySpell = r2.worstDrySpell := by
  obtain ⟨r1, h1⟩ := runWaterBalance_ok ⟨wData3, 1000, 100, 500, none, none⟩
    (by decide) (by norm_num) (by norm_num) (by norm_num)
  obtain ⟨r2, h2⟩ := runWaterBalance_ok ⟨wData3, 5000, 100, 300, none, some 100⟩
    (by decide) (by norm_num) (by norm_num) (by norm_num)
  exact ⟨r1, r2, h1, h2,
    c6_worstDrySpell_independent ⟨wData3, 1000, 100, 500, none, none⟩
      ⟨wData3, 5000, 100, 300, none, some 100⟩ r1 r2 rfl rfl rfl h1 h2⟩

/-- Invariant of the dry-spell loop: any recorded spell has positive
duration and starts at an observed date, and once a current spell is
open it never closes to `none`. -/
theorem drySpellStep_fold_inv (dates : List JsDate) :
    ∀ (days : List DayData) (s : Option DrySpellInfo × Option DrySpellInfo),
    (∀ d ∈ days, d.date ∈ dates) →
    (∀ w, s.1 = some w → 1 ≤ w.duration ∧ w.startDate ∈ dates) →
    (∀ c, s.2 = some c → 1 ≤ c.duration ∧ c.startDate ∈ dates) →
    (∀ w, (days.foldl drySpellStep s).1 = some w → 1 ≤ w.duration ∧ w.startDate ∈ dates)
      ∧ (∀ c, (days.foldl drySpellStep s).2 = some c → 1 ≤ c.duration ∧ c.startDate ∈ dates)
      ∧ ((days ≠ [] ∨ s.2.isSome) → ((days.foldl drySpellStep s).2).isSome)
  | [], s => by
    intro _ hw hc
    refine ⟨hw, hc, ?_⟩
    rintro (h | h)
    · exact absurd rfl h
    · exact h
  | d :: days, s => by
    intro hdays hw hc
    rw [List.foldl_cons]
    have hdate : d.date ∈ dates := hdays d (by simp)
    have hdays' : ∀ x ∈ days, x.date ∈ dates := fun x hx => hdays x (by simp [hx])
    have hstep :
        (∀ w, (drySpellStep s d).1 = some w → 1 ≤ w.duration ∧ w.startDate ∈ dates)
          ∧ (∀ c, (drySpellStep s d).2 = some c → 1 ≤ c.duration ∧ c.startDate ∈ dates)
          ∧ ((drySpellStep s d).2).isSome := by
      cases hs2 : s.2 with
      | none =>
        refine ⟨?_, ?_, ?_⟩ <;> simp only [drySpellStep, hs2]
        · exact hw
        · intro c hcc
          injection hcc with hcc
          rw [← hcc]
          exact ⟨le_refl 1, hdate⟩
        · rfl
      | some c =>
        have hcgood := hc c hs2
        cases hmiss : d.missing with
        | true =>
          simp only [drySpellStep, hs2, hmiss, ite_true]
          split_ifs with havg
          · refine ⟨hw, ?_, rfl⟩
            intro x hx
            injection hx with hx
            rw [← hx]
            exact ⟨Nat.le_succ_of_le hcgood.1, hcgood.2⟩
          · refine ⟨?_, ?_, rfl⟩
            · intro x hx
              cases hs1 : s.1 with
              | none =>
                simp only [hs1] at hx
                injection hx with hx
                rw [← hx]
                exact hcgood
              | some w =>
                have hwgood := hw w hs1
                simp only [hs1] at hx
                split_ifs at hx <;> injection hx with hx <;> rw [← hx]
                · exact hcgood
                · exact hwgood
            · intro x hx
              injection hx with hx
              rw [← hx]
              exact ⟨le_refl 1, hdate⟩
        | false =>
          simp only [drySpellStep, hs2, hmiss, Bool.false_eq_true, ite_false]
          split_ifs with havg
          · refine ⟨hw, ?_, rfl⟩
            intro x hx
            injection hx with hx
            rw [← hx]
            exact ⟨Nat.le_succ_of_le hcgood.1, hcgood.2⟩
          · refine ⟨?_, ?_, rfl⟩
            · intro x hx
              cases hs1 : s.1 with
              | none =>
                simp only [hs1] at hx
                injection hx with hx
                rw [← hx]
                exact hcgood
              | some w =>
                have hwgood := hw w hs1
                simp only [hs1] at hx
                split_ifs at hx <;> injection hx with hx <;> rw [← hx]
                · exact hcgood
                · exact hwgood
            · intro x hx
              injection hx with hx
              rw [← hx]
              exact ⟨le_refl 1, hdate⟩
    obtain ⟨hw', hc', hsome'⟩ := hstep
    have ih := drySpellStep_fold_inv dates days (drySpellStep s d) hdays' hw' hc'
    exact ⟨ih.1, ih.2.1, fun _ => ih.2.2 (Or.inr hsome')⟩

/-- C10: on non-empty data the detector returns a spell of duration at
least 1 whose start date is an observed date; the zero-duration fallback
is unreachable. -/
theorem c10_worstDrySpell_nonempty (rainfallData : List DayData)
    (roofArea_m2 runoffCoefficient : ℚ) (hd : rainfallData ≠ []) :
    1 ≤ (findWorstDrySpell rainfallData roofArea_m2 runoffCoefficient).duration
      ∧ (findWorstDrySpell rainfallData roofArea_m2 runoffCoefficient).startDate
          ∈ rainfallData.map DayData.date := by
  have hinv := drySpellStep_fold_inv (rainfallData.map DayData.date) rainfallData
    (none, none) (fun d hd => List.mem_map_of_mem DayData.date hd)
    (by simp) (by simp)
  obtain ⟨hw, hc, hsome⟩ := hinv
  have hcur := hsome (Or.inl hd)
  obtain ⟨c, hc2⟩ := Option.isSome_iff_exists.mp hcur
  have hcgood := hc c hc2
  simp only [findWorstDrySpell, hc2]
  cases hs1 : (rainfallData.foldl drySpellStep (none, none)).1 with
  | none =>
    simp only [hs1]
    simpa using hcgood
  | some w =>
    have hwgood := hw w hs1
    simp only [hs1]
    by_cases hgt : c.duration > w.duration
    · simpa [hgt] using hcgood
    · simpa [hgt] using hwgood

/-- Witness for C10 on concrete data. -/
theorem c10_worstDrySpell_nonempty_witness :
    1 ≤ (findWorstDrySpell wData3 100 (85/100)).duration
      ∧ (findWorstDrySpell wData3 100 (85/100)).startDate ∈ wData3.map DayData.date :=
  c10_worstDrySpell_nonempty wData3 100 (85/100) (by decide)

/-! ## Monotonicity in the tank capacity -/

theorem clamp_le_clamp {x x' lo hi hi' : ℚ} (hx : x ≤ x') (hhi : hi ≤ hi') :
    clamp x lo hi ≤ clamp x' lo hi' :=
  min_le_min (max_le_max hx le_rfl) hhi

/-- Pointwise comparison of two traces over the same data that differ
only in capacity (and stress threshold): the larger tank is never lower,
never in larger deficit, and levels are non-negative. -/
theorem dailyTrace_mono (t t' a u rc th th' : ℚ) (htt : t ≤ t') (ht0 : 0 ≤ t) :
    ∀ (days : List DayData) (cur cur' : ℚ), cur ≤ cur' →
    List.Forall₂
      (fun p q => p.level_L ≤ q.level_L ∧ q.deficit_L ≤ p.deficit_L ∧ 0 ≤ p.level_L)
      (dailyTrace t a u rc th cur days) (dailyTrace t' a u rc th' cur' days)
  | [], _, _, _ => List.Forall₂.nil
  | d :: days, cur, cur', hcur => by
    have hraw : cur + (if d.missing then 0 else d.rainfall_mm * a * rc) - u
        ≤ cur' + (if d.missing then 0 else d.rainfall_mm * a * rc) - u := by linarith
    have hlev : (mkDailyState t a u rc th cur d).level_L
        ≤ (mkDailyState t' a u rc th' cur' d).level_L := by
      simp only [mkDailyState, clamp]
      exact min_le_min (max_le_max hraw le_rfl) htt
    have hdef : (mkDailyState t' a u rc th' cur' d).deficit_L
        ≤ (mkDailyState t a u rc th cur d).deficit_L := by
      simp only [mkDailyState]
      exact max_le_max le_rfl (by linarith)
    have hnn : 0 ≤ (mkDailyState t a u rc th cur d).level_L := by
      simp only [mkDailyState, clamp]
      exact le_min (le_max_right _ _) ht0
    exact List.Forall₂.cons ⟨hlev, hdef, hnn⟩
      (dailyTrace_mono t t' a u rc th th' htt ht0 days _ _ hlev)

theorem forall2_sum_le {α β : Type} (f : α → ℚ) (g : β → ℚ) :
    ∀ {l : List α} {l' : List β}, List.Forall₂ (fun a b => g b ≤ f a) l l' →
    (l'.map g).sum ≤ (l.map f).sum := by
  intro l l' h
  induction h with
  | nil => simp
  | cons hab _ ih =>
    simp only [List.map_cons, List.sum_cons]
    exact add_le_add hab ih

theorem forall2_countP_le {α β : Type} (p : α → Bool) (q : β → Bool) :
    ∀ {l : List α} {l' : List β},
    List.Forall₂ (fun a b => q b = true → p a = true) l l' →
    l'.countP q ≤ l.countP p := by
  intro l l' h
  induction h with
  | nil => simp
  | cons hab _ ih =>
    rename_i a b l₁ l₂ _
    rw [List.countP_cons, List.countP_cons]
    by_cases hq : q b = true
    · simp [hq, hab hq]
      omega
    · simp [hq]
      omega

/-- The summary of a successful run, read off the characterization. -/
theorem runWaterBalance_summary (config : WBConfig) (r : SimResult)
    (hd : config.rainfallData ≠ []) (ht : 0 < config.tankSize_L)
    (ha : 0 < config.roofArea_m2) (hu : 0 < config.dailyUsage_L)
    (h : runWaterBalance config = Except.ok r) :
    r.summary.totalDeficit_L = ((cfgTrace config).map DailyState.deficit_L).sum
      ∧ r.summary.daysEmpty = (cfgTrace config).countP (fun st => st.isEmpty)
      ∧ r.summary.reliabilityPercent
          = ((((cfgTrace config).length : ℚ)
              - ((cfgTrace config).countP (fun st => st.isEmpty) : ℚ))
              / ((cfgTrace config).length : ℚ)) * 100
      ∧ r.dailyLevels = cfgTrace config := by
  have hbr := (runWaterBalance_char config hd ht ha hu).symm.trans h
  simp only [Except.ok.injEq] at hbr
  subst hbr
  exact ⟨rfl, rfl, rfl, rfl⟩

/-- Monotonicity of the simulation in the capacity, with the usage,
area and defaulted runoff coefficient and initial level held fixed: a
larger tank has no more deficit, no more empty days, and at least the
reliability. -/
theorem runWaterBalance_mono (data : List DayData) (a u c c' : ℚ)
    (hd : data ≠ []) (ha : 0 < a) (hu : 0 < u) (hc : 0 < c) (hcc : c ≤ c')
    (r r' : SimResult)
    (h : runWaterBalance ⟨data, c, a, u, none, none⟩ = Except.ok r)
    (h' : runWaterBalance ⟨data, c', a, u, none, none⟩ = Except.ok r') :
    r'.summary.totalDeficit_L ≤ r.summary.totalDeficit_L
      ∧ r'.summary.daysEmpty ≤ r.summary.daysEmpty
      ∧ r.summary.reliabilityPercent ≤ r'.summary.reliabilityPercent := by
  have hc' : 0 < c' := lt_of_lt_of_le hc hcc
  obtain ⟨hdefe, hempe, hrele, _⟩ :=
    runWaterBalance_summary ⟨data, c, a, u, none, none⟩ r hd hc ha hu h
  obtain ⟨hdefe', hempe', hrele', _⟩ :=
    runWaterBalance_summary ⟨data, c', a, u, none, none⟩ r' hd hc' ha hu h'
  have htr : cfgTrace ⟨data, c, a, u, none, none⟩
      = dailyTrace c a u DEFAULTS.runoffCoefficient (c * DEFAULTS.stressThreshold)
          (clamp (c/2) 0 c) data := rfl
  have htr' : cfgTrace ⟨data, c', a, u, none, none⟩
      = dailyTrace c' a u DEFAULTS.runoffCoefficient (c' * DEFAULTS.stressThreshold)
          (clamp (c'/2) 0 c') data := rfl
  rw [htr] at hdefe hempe hrele
  rw [htr'] at hdefe' hempe' hrele'
  set trace := dailyTrace c a u DEFAULTS.runoffCoefficient (c * DEFAULTS.stressThreshold)
    (clamp (c/2) 0 c) data with htrdef
  set trace' := dailyTrace c' a u DEFAULTS.runoffCoefficient (c' * DEFAULTS.stressThreshold)
    (clamp (c'/2) 0 c') data with htrdef'
  have hfa : List.Forall₂
      (fun p q => p.level_L ≤ q.level_L ∧ q.deficit_L ≤ p.deficit_L ∧ 0 ≤ p.level_L)
      trace trace' :=
    dailyTrace_mono c c' a u DEFAULTS.runoffCoefficient
      (c * DEFAULTS.stressThreshold) (c' * DEFAULTS.stressThreshold) hcc (le_of_lt hc)
      data (clamp (c/2) 0 c) (clamp (c'/2) 0 c') (clamp_le_clamp (by linarith) hcc)
  have hdef : (trace'.map DailyState.deficit_L).sum ≤ (trace.map DailyState.deficit_L).sum :=
    forall2_sum_le DailyState.deficit_L DailyState.deficit_L
      (List.Forall₂.imp (fun p q hab => hab.2.1) hfa)
  have hemptyQ : trace'.countP (fun st => st.isEmpty)
      ≤ trace.countP (fun st => st.isEmpty) := by
    have e1 : trace.countP (fun st => st.isEmpty)
        = trace.countP (fun st => decide (st.level_L = 0)) :=
      List.countP_congr (fun st hst => by
        rw [(dailyTrace_flags _ _ _ _ _ _ _ st hst).1])
    have e2 : trace'.countP (fun st => st.isEmpty)
        = trace'.countP (fun st => decide (st.level_L = 0)) :=
      List.countP_congr (fun st hst => by
        rw [(dailyTrace_flags _ _ _ _ _ _ _ st hst).1])
    rw [e1, e2]
    refine forall2_countP_le _ _ (List.Forall₂.imp (fun p q hab => ?_) hfa)
    intro hb
    simp only [decide_eq_true_eq] at hb ⊢
    have h1 := hab.1
    have h2 := hab.2.2
    linarith
  have hlen : trace'.length = trace.length := by
    rw [htrdef, htrdef', dailyTrace_length, dailyTrace_length]
  have hn : 0 < trace.length := by
    rw [htrdef, dailyTrace_length]
    exact List.length_pos.mpr hd
  refine ⟨?_, ?_, ?_⟩
  · rw [hdefe, hdefe']
    exact hdef
  · rw [hempe, hempe']
    exact hemptyQ
  · rw [hrele, hrele', hlen]
    have hnQ : (0 : ℚ) < (trace.length : ℚ) := by exact_mod_cast hn
    have hcast : ((trace'.countP (fun st => st.isEmpty) : ℚ))
        ≤ ((trace.countP (fun st => st.isEmpty) : ℚ)) := by exact_mod_cast hemptyQ
    have hsub : ((trace.length : ℚ) - (trace.countP (fun st => st.isEmpty) : ℚ))
        ≤ ((trace.length : ℚ) - (trace'.countP (fun st => st.isEmpty) : ℚ)) := by linarith
    exact mul_le_mul_of_nonneg_right ((div_le_div_iff_of_pos_right hnQ).mpr hsub)
      (by norm_num)

/-- Larger tanks never increase the total deficit. -/
theorem totalDeficitAt_anti (data : List DayData) (a u : ℚ)
    (hd : data ≠ []) (ha : 0 < a) (hu : 0 < u) (c1 c2 : ℚ)
    (h1 : 0 < c1) (h12 : c1 ≤ c2) :
    totalDeficitAt data a u c2 ≤ totalDeficitAt data a u c1 := by
  obtain ⟨r1, hr1⟩ := runWaterBalance_ok ⟨data, c1, a, u, none, none⟩ hd h1 ha hu
  obtain ⟨r2, hr2⟩ := runWaterBalance_ok ⟨data, c2, a, u, none, none⟩ hd
    (lt_of_lt_of_le h1 h12) ha hu
  simp only [totalDeficitAt, hr1, hr2]
  exact (runWaterBalance_mono data a u c1 c2 hd ha hu h1 h12 r1 r2 hr1 hr2).1

/-- `compareTankSize` succeeds on a positive size and valid input, and
its `percentOffset` is determined by the deficit at that size. -/
theorem compareTankSize_offset (data : List DayData)
    (a u rate demand yrs capture size : ℚ)
    (hd : data ≠ []) (ha : 0 < a) (hu : 0 < u) (hs : 0 < size) :
    ∃ e, compareTankSize data a u rate demand yrs capture size = Except.ok e
      ∧ e.percentOffset = ((demand - totalDeficitAt data a u size) / demand) * 100
      ∧ e.captureEfficiency = (if 0 < capture
          then ((capture - e.overflow_L) / capture) * 100 else 0)
      ∧ e.overflowPercent = (if 0 < capture
          then (e.overflow_L / capture) * 100 else 0) := by
  obtain ⟨r, hr⟩ := runWaterBalance_ok ⟨data, size, a, u, none, none⟩ hd hs ha hu
  refine ⟨entryOfResult rate demand yrs capture size r, ?_, ?_, rfl, rfl⟩
  · rw [compareTankSize, hr]
    rfl
  · simp only [entryOfResult, totalDeficitAt, hr]

theorem except_bind_ok {α β : Type} (a : α) (f : α → Except String β) :
    (Except.ok a >>= f) = f a := rfl

theorem mapM_ok_forall₂ {α β : Type} (f : α → Except String β) :
    ∀ (l : List α), (∀ x ∈ l, ∃ y, f x = Except.ok y) →
    ∃ ys, l.mapM f = Except.ok ys ∧ List.Forall₂ (fun x y => f x = Except.ok y) l ys
  | [], _ => ⟨[], rfl, List.Forall₂.nil⟩
  | x :: l, h => by
    obtain ⟨y, hy⟩ := h x (by simp)
    obtain ⟨ys, hys, hfa⟩ := mapM_ok_forall₂ f l (fun z hz => h z (by simp [hz]))
    refine ⟨y :: ys, ?_, List.Forall₂.cons hy hfa⟩
    rw [List.mapM_cons, hy, hys]
    rfl

theorem chain'_of_forall₂ {α β : Type} {R : α → α → Prop} {S : β → β → Prop}
    {P : α → β → Prop} (h : ∀ a a' b b', P a b → P a' b' → R a a' → S b b') :
    ∀ {l : List α} {l' : List β},
    List.Forall₂ P l l' → List.Chain' R l → List.Chain' S l' := by
  intro l l' hf
  induction hf with
  | nil => exact fun _ => List.chain'_nil
  | cons hab htail ih =>
    rename_i a b l₁ l₂
    intro hch
    cases htail with
    | nil => exact List.chain'_singleton b
    | cons hab2 htail2 =>
      rename_i a2 b2 l₁' l₂'
      have hR : R a a2 := (List.chain'_cons.mp hch).1
      have hch2 := (List.chain'_cons.mp hch).2
      exact List.chain'_cons.mpr ⟨h a a2 b b2 hab hab2 hR, ih hch2⟩

/-- A non-empty comparison list always yields a best-value entry. -/
theorem findBestValueTank_isSome (comparisons : List ComparisonEntry)
    (h : comparisons ≠ []) : ∃ e, findBestValueTank comparisons = some e := by
  rw [findBestValueTank]
  by_cases h0 : comparisons.length = 0
  · exact absurd (List.length_eq_zero.mp h0) h
  · by_cases h1 : comparisons.length = 1
    · simp only [h0, h1, if_false, if_true, ite_true, ite_false]
      cases comparisons with
      | nil => exact absurd rfl h
      | cons e l => exact ⟨e, rfl⟩
    · simp only [h0, h1, if_false, ite_false]
      have hpos : 0 < comparisons.length := List.length_pos.mpr h
      have hlt : min (bestIndexLoop 0 none (marginalBenefitsOf comparisons))
          (comparisons.length - 1) < comparisons.length :=
        lt_of_le_of_lt (min_le_right _ _) (by omega)
      exact ⟨_, List.get?_eq_get hlt⟩

/-- C4: with the dataset, roof area, daily usage and defaults fixed, the
`percentOffset` of the comparative analysis is non-decreasing across the
candidate capacities taken in ascending order; equivalently the total
deficit of the simulation is non-increasing in the tank capacity. -/
theorem c4_percentOffset_monotone (data : List DayData) (a u rate : ℚ)
    (sizes : List ℚ) (hd : data ≠ []) (ha : 0 < a) (hu : 0 < u)
    (hsz : sizes ≠ []) (hpos : ∀ s ∈ sizes, 0 < s)
    (hsort : List.Chain' (· ≤ ·) sizes) :
    ∃ res, analyzeOpportunisticMode data a u rate (some sizes) = Except.ok res
      ∧ List.Chain' (fun e1 e2 => e1.percentOffset ≤ e2.percentOffset) res.comparisons
      ∧ ∀ c1 c2 : ℚ, 0 < c1 → c1 ≤ c2 →
          totalDeficitAt data a u c2 ≤ totalDeficitAt data a u c1 := by
  have hanti : ∀ c1 c2 : ℚ, 0 < c1 → c1 ≤ c2 →
      totalDeficitAt data a u c2 ≤ totalDeficitAt data a u c1 :=
    fun c1 c2 h1 h12 => totalDeficitAt_anti data a u hd ha hu c1 c2 h1 h12
  have hdemand : (0 : ℚ) < u * (data.length : ℚ) := by
    have : (0 : ℚ) < (data.length : ℚ) := by
      exact_mod_cast List.length_pos.mpr hd
    exact mul_pos hu this
  obtain ⟨ys, hys, hfa⟩ := mapM_ok_forall₂
    (compareTankSize data a u rate (u * (data.length : ℚ))
      ((data.length : ℚ) / (36525/100))
      (calculateRoofPotential data a DEFAULTS.runoffCoefficient).totalCapture_L)
    sizes
    (fun x hx => by
      obtain ⟨e, he, _, _, _⟩ := compareTankSize_offset data a u rate
        (u * (data.length : ℚ)) ((data.length : ℚ) / (36525/100))
        (calculateRoofPotential data a DEFAULTS.runoffCoefficient).totalCapture_L
        x hd ha hu (hpos x hx)
      exact ⟨e, he⟩)
  have hysne : ys ≠ [] := by
    intro hnil
    have := hfa.length_eq
    rw [hnil] at this
    simp at this
    exact hsz this
  obtain ⟨bv, hbv⟩ := findBestValueTank_isSome ys hysne
  have hfaP : List.Forall₂ (fun s e => 0 < s
      ∧ compareTankSize data a u rate (u * (data.length : ℚ))
          ((data.length : ℚ) / (36525/100))
          (calculateRoofPotential data a DEFAULTS.runoffCoefficient).totalCapture_L s
        = Except.ok e) sizes ys :=
    (List.forall₂_and_left _ _).mpr ⟨hpos, hfa⟩
  have hchain : List.Chain' (fun e1 e2 => e1.percentOffset ≤ e2.percentOffset) ys := by
    refine chain'_of_forall₂ ?_ hfaP hsort
    intro s1 s2 e1 e2 hP1 hP2 hle
    obtain ⟨hs1, he1⟩ := hP1
    obtain ⟨hs2, he2⟩ := hP2
    obtain ⟨e1', he1', hoff1, _, _⟩ := compareTankSize_offset data a u rate
      (u * (data.length : ℚ)) ((data.length : ℚ) / (36525/100))
      (calculateRoofPotential data a DEFAULTS.runoffCoefficient).totalCapture_L
      s1 hd ha hu hs1
    obtain ⟨e2', he2', hoff2, _, _⟩ := compareTankSize_offset data a u rate
      (u * (data.length : ℚ)) ((data.length : ℚ) / (36525/100))
      (calculateRoofPotential data a DEFAULTS.runoffCoefficient).totalCapture_L
      s2 hd ha hu hs2
    have he1eq : e1 = e1' := by
      have h12 := he1.symm.trans he1'
      injection h12
    have he2eq : e2 = e2' := by
      have h12 := he2.symm.trans he2'
      injection h12
    rw [he1eq, he2eq, hoff1, hoff2]
    have hdefle := hanti s1 s2 hs1 hle
    have hstep : (u * (data.length : ℚ)) - totalDeficitAt data a u s1
        ≤ (u * (data.length : ℚ)) - totalDeficitAt data a u s2 := by linarith
    exact mul_le_mul_of_nonneg_right
      ((div_le_div_iff_of_pos_right hdemand).mpr hstep) (by norm_num)
  have hok : ∃ res, analyzeOpportunisticMode data a u rate (some sizes) = Except.ok res
      ∧ res.comparisons = ys := by
    rw [analyzeOpportunisticMode]
    simp only [Option.getD_some]
    rw [hys, except_bind_ok, hbv]
    exact ⟨_, rfl, rfl⟩
  obtain ⟨res, hres, hcomp⟩ := hok
  exact ⟨res, hres, hcomp ▸ hchain, hanti⟩

/-- Witness for C4 on concrete data and two ascending capacities. -/
theorem c4_percentOffset_monotone_witness :
    ∃ res, analyzeOpportunisticMode wData3 100 500 (7/2) (some [2000, 5000]) = Except.ok res
      ∧ List.Chain' (fun e1 e2 => e1.percentOffset ≤ e2.percentOffset) res.comparisons
      ∧ ∀ c1 c2 : ℚ, 0 < c1 → c1 ≤ c2 →
          totalDeficitAt wData3 100 500 c2 ≤ totalDeficitAt wData3 100 500 c1 :=
  c4_percentOffset_monotone wData3 100 500 (7/2) [2000, 5000]
    (by decide) (by norm_num) (by norm_num) (by decide)
    (by
      intro s hs
      rcases List.mem_cons.mp hs with h | h
      · rw [h]; norm_num
      · simp only [List.mem_singleton] at h
        rw [h]; norm_num)
    (by
      refine List.chain'_cons.mpr ⟨by norm_num, List.chain'_singleton _⟩)

/-! ## The grid-snapped binary search -/

theorem jsRound_int_half (k : Int) : jsRound ((k : ℚ) / 2) = (k + 1) / 2 := by
  rw [jsRound]
  have h : (k : ℚ) / 2 + 1/2 = ((k + 1 : ℤ) : ℚ) / ((2 : ℕ) : ℚ) := by
    push_cast
    ring
  rw [h, Rat.floor_intCast_div_natCast]
  norm_num

/-- The snapped midpoint, written on the `500`-grid. -/
theorem mid_eq_grid (low high a b : Int) (hla : low = 500 * a) (hhb : high = 500 * b) :
    jsRound (((low : ℚ) + (high : ℚ)) / 2 / ((SEARCH_STEP : Int) : ℚ)) * SEARCH_STEP
      = ((a + b + 1) / 2) * 500 := by
  subst hla hhb
  have h1 : (((500 * a : ℤ) : ℚ) + ((500 * b : ℤ) : ℚ)) / 2 / ((SEARCH_STEP : Int) : ℚ)
      = ((a + b : ℤ) : ℚ) / 2 := by
    simp only [SEARCH_STEP]
    push_cast
    ring
  rw [h1, jsRound_int_half]
  simp only [SEARCH_STEP]

/-- Reliability as a fraction is non-negative and at most 1 on valid
input. -/
theorem reliaFracAt_bounds (data : List DayData) (a u : ℚ) (c : Int)
    (hd : data ≠ []) (ha : 0 < a) (hu : 0 < u) (hc : 0 < c) :
    0 ≤ reliaFracAt data a u c ∧ reliaFracAt data a u c ≤ 1 := by
  have hcQ : (0 : ℚ) < (c : ℚ) := by exact_mod_cast hc
  obtain ⟨r, hr⟩ := runWaterBalance_ok ⟨data, (c : ℚ), a, u, none, none⟩ hd hcQ ha hu
  obtain ⟨_, _, hrel, _⟩ :=
    runWaterBalance_summary ⟨data, (c : ℚ), a, u, none, none⟩ r hd hcQ ha hu hr
  simp only [reliaFracAt, hr]
  set n := (cfgTrace ⟨data, (c : ℚ), a, u, none, none⟩).length with hn
  set e := (cfgTrace ⟨data, (c : ℚ), a, u, none, none⟩).countP (fun st => st.isEmpty)
    with he
  have hen : e ≤ n := List.countP_le_length _
  have hnpos : 0 < n := by
    rw [hn, cfgTrace, dailyTrace_length]
    exact List.length_pos.mpr hd
  have hnQ : (0 : ℚ) < (n : ℚ) := by exact_mod_cast hnpos
  have henQ : ((e : ℚ)) ≤ ((n : ℚ)) := by exact_mod_cast hen
  have heQ : (0 : ℚ) ≤ (e : ℚ) := by positivity
  rw [hrel]
  constructor
  · apply div_nonneg _ (by norm_num)
    apply mul_nonneg _ (by norm_num)
    apply div_nonneg _ (le_of_lt hnQ)
    linarith
  · rw [div_le_one (by norm_num)]
    have hfrac : ((n : ℚ) - (e : ℚ)) / (n : ℚ) ≤ 1 := by
      rw [div_le_one hnQ]
      linarith
    nlinarith

/-- Reliability as a fraction is monotone in the (integer) capacity. -/
theorem reliaFracAt_mono (data : List DayData) (a u : ℚ)
    (hd : data ≠ []) (ha : 0 < a) (hu : 0 < u) (ci cj : Int)
    (h0 : 0 < ci) (hij : ci ≤ cj) :
    reliaFracAt data a u ci ≤ reliaFracAt data a u cj := by
  have h0Q : (0 : ℚ) < (ci : ℚ) := by exact_mod_cast h0
  have hijQ : ((ci : ℚ)) ≤ ((cj : ℚ)) := by exact_mod_cast hij
  obtain ⟨ri, hri⟩ := runWaterBalance_ok ⟨data, (ci : ℚ), a, u, none, none⟩ hd h0Q ha hu
  obtain ⟨rj, hrj⟩ := runWaterBalance_ok ⟨data, (cj : ℚ), a, u, none, none⟩ hd
    (lt_of_lt_of_le h0Q hijQ) ha hu
  simp only [reliaFracAt, hri, hrj]
  have hm := (runWaterBalance_mono data a u (ci : ℚ) (cj : ℚ) hd ha hu h0Q hijQ
    ri rj hri hrj).2.2
  exact (div_le_div_iff_of_pos_right (by norm_num : (0:ℚ) < 100)).mpr hm

/-- The search loop, under the monotonicity assumption, returns the
least grid capacity meeting the target.  The invariants: bracket ends on
the grid, every grid point below `low` fails the target, `best` is a
grid point meeting the target with `best ≤ high + 500`, and the fuel
dominates the bracket width. -/
theorem tankSearchLoop_least (data : List DayData) (a u target : ℚ)
    (hd : data ≠ []) (ha : 0 < a) (hu : 0 < u)
    (hmono : ∀ c c' : Int, 0 < c → c ≤ c' →
      reliaFracAt data a u c ≤ reliaFracAt data a u c')
    (L : Int) (hLgrid : isGridSize L) (hLP : target ≤ reliaFracAt data a u L)
    (hLmin : ∀ c : Int, isGridSize c → target ≤ reliaFracAt data a u c → L ≤ c) :
    ∀ (fuel : Nat) (low high best : Int) (bestRel : ℚ),
    low % 500 = 0 → high % 500 = 0 → 1000 ≤ low → high ≤ 100000 →
    high + 500 - low ≤ 500 * (fuel : Int) →
    (∀ c : Int, isGridSize c → c < low → ¬ target ≤ reliaFracAt data a u c) →
    isGridSize best → target ≤ reliaFracAt data a u best → best ≤ high + 500 →
    ∃ br, tankSearchLoop data a u target fuel low high best bestRel = Except.ok (L, br)
  | 0, low, high, best, bestRel => by
    intro hl5 hh5 hlow hhigh hfuel hexcl hbgrid hbP hble
    have hlowL : low ≤ L := by
      by_contra hlt
      push_neg at hlt
      exact hexcl L hLgrid hlt hLP
    have hLbest : L ≤ best := hLmin best hbgrid hbP
    have hbestL : best = L := by omega
    exact ⟨bestRel, by rw [tankSearchLoop, hbestL]⟩
  | Nat.succ fuel, low, high, best, bestRel => by
    intro hl5 hh5 hlow hhigh hfuel hexcl hbgrid hbP hble
    by_cases hlh : low ≤ high
    · have hmide := mid_eq_grid low high (low / 500) (high / 500) (by omega) (by omega)
      set m : Int := ((low / 500) + (high / 500) + 1) / 2 with hm
      have hmlow : low ≤ m * 500 := by omega
      have hmhigh : m * 500 ≤ high := by omega
      have hmgrid : isGridSize (m * 500) := ⟨by omega, by omega, by omega⟩
      have hm0 : (0 : Int) < m * 500 := by omega
      have hm0Q : (0 : ℚ) < ((m * 500 : Int) : ℚ) := by exact_mod_cast hm0
      obtain ⟨r, hr⟩ := runWaterBalance_ok ⟨data, ((m * 500 : Int) : ℚ), a, u, none, none⟩
        hd hm0Q ha hu
      have hrelr : reliaFracAt data a u (m * 500) = r.summary.reliabilityPercent / 100 := by
        simp only [reliaFracAt, hr]
      rw [tankSearchLoop, if_pos hlh]
      simp only [hmide]
      rw [hr, except_bind_ok]
      by_cases hP : target ≤ reliaFracAt data a u (m * 500)
      · rw [if_pos (by rw [← hrelr]; exact hP)]
        exact tankSearchLoop_least data a u target hd ha hu hmono L hLgrid hLP hLmin
          fuel low (m * 500 - SEARCH_STEP) (m * 500) _ hl5 (by simp only [SEARCH_STEP]; omega)
          hlow (by simp only [SEARCH_STEP]; omega) (by simp only [SEARCH_STEP]; omega)
          hexcl hmgrid hP (by simp only [SEARCH_STEP]; omega)
      · rw [if_neg (by rw [← hrelr]; exact hP)]
        refine tankSearchLoop_least data a u target hd ha hu hmono L hLgrid hLP hLmin
          fuel (m * 500 + SEARCH_STEP) high best bestRel (by simp only [SEARCH_STEP]; omega)
          hh5 (by simp only [SEARCH_STEP]; omega) hhigh
          (by simp only [SEARCH_STEP]; omega) ?_ hbgrid hbP hble
        intro c hcg hclt
        by_cases hcold : c < low
        · exact hexcl c hcg hcold
        · push_neg at hcold
          intro hPc
          apply hP
          obtain ⟨hc5, hc10, hcmax⟩ := hcg
          have hc0 : (0 : Int) < c := by omega
          have hcm : c ≤ m * 500 := by
            simp only [SEARCH_STEP] at hclt
            omega
          exact le_trans hPc (hmono c (m * 500) hc0 hcm)
    · rw [tankSearchLoop, if_neg hlh]
      have hlowL : low ≤ L := by
        by_contra hlt
        push_neg at hlt
        exact hexcl L hLgrid hlt hLP
      have hLbest : L ≤ best := hLmin best hbgrid hbP
      have hbestL : best = L := by omega
      exact ⟨bestRel, by rw [hbestL]⟩

/-- The search loop always succeeds on valid input and returns a grid
capacity meeting the target, provided the initial best does. -/
theorem tankSearchLoop_best (data : List DayData) (a u target : ℚ)
    (hd : data ≠ []) (ha : 0 < a) (hu : 0 < u) :
    ∀ (fuel : Nat) (low high best : Int) (bestRel : ℚ),
    low % 500 = 0 → high % 500 = 0 → 1000 ≤ low → high ≤ 100000 →
    isGridSize best → target ≤ reliaFracAt data a u best →
    ∃ bs br, tankSearchLoop data a u target fuel low high best bestRel
        = Except.ok (bs, br)
      ∧ isGridSize bs ∧ target ≤ reliaFracAt data a u bs
  | 0, low, high, best, bestRel => by
    intro _ _ _ _ hbgrid hbP
    exact ⟨best, bestRel, by rw [tankSearchLoop], hbgrid, hbP⟩
  | Nat.succ fuel, low, high, best, bestRel => by
    intro hl5 hh5 hlow hhigh hbgrid hbP
    by_cases hlh : low ≤ high
    · have hmide := mid_eq_grid low high (low / 500) (high / 500) (by omega) (by omega)
      set m : Int := ((low / 500) + (high / 500) + 1) / 2 with hm
      have hmlow : low ≤ m * 500 := by omega
      have hmhigh : m * 500 ≤ high := by omega
      have hmgrid : isGridSize (m * 500) := ⟨by omega, by omega, by omega⟩
      have hm0 : (0 : Int) < m * 500 := by omega
      have hm0Q : (0 : ℚ) < ((m * 500 : Int) : ℚ) := by exact_mod_cast hm0
      obtain ⟨r, hr⟩ := runWaterBalance_ok ⟨data, ((m * 500 : Int) : ℚ), a, u, none, none⟩
        hd hm0Q ha hu
      have hrelr : reliaFracAt data a u (m * 500) = r.summary.reliabilityPercent / 100 := by
        simp only [reliaFracAt, hr]
      rw [tankSearchLoop, if_pos hlh]
      simp only [hmide]
      rw [hr, except_bind_ok]
      by_cases hP : target ≤ reliaFracAt data a u (m * 500)
      · rw [if_pos (by rw [← hrelr]; exact hP)]
        exact tankSearchLoop_best data a u target hd ha hu fuel
          low (m * 500 - SEARCH_STEP) (m * 500) _ hl5
          (by simp only [SEARCH_STEP]; omega) hlow
          (by simp only [SEARCH_STEP]; omega) hmgrid hP
      · rw [if_neg (by rw [← hrelr]; exact hP)]
        exact tankSearchLoop_best data a u target hd ha hu fuel
          (m * 500 + SEARCH_STEP) high best bestRel
          (by simp only [SEARCH_STEP]; omega) hh5
          (by simp only [SEARCH_STEP]; omega) hhigh hbgrid hbP
    · rw [tankSearchLoop, if_neg hlh]
      exact ⟨best, bestRel, rfl, hbgrid, hbP⟩

/-- Rounding up to the next multiple of 1000 L does not decrease. -/
theorem le_practical (bs : Int) : bs ≤ ⌈(bs : ℚ) / 1000⌉ * 1000 := by
  have h := Int.le_ceil ((bs : ℚ) / 1000)
  have h2 : ((bs : ℚ) / 1000) * 1000 ≤ (⌈(bs : ℚ) / 1000⌉ : ℚ) * 1000 :=
    mul_le_mul_of_nonneg_right h (by norm_num)
  have h3 : ((bs : ℚ) / 1000) * 1000 = (bs : ℚ) := by
    field_simp
  have h4 : ((bs : ℚ)) ≤ ((⌈(bs : ℚ) / 1000⌉ * 1000 : ℤ) : ℚ) := by
    push_cast
    linarith
  exact_mod_cast h4

/-- C2: assuming reliability (as a fraction) is non-decreasing in the
capacity and the simulation at `SEARCH_MAX` meets the target, the binary
search terminates and `exactMinimum` is the least multiple of 500 L in
`[1000, 100000]` whose reliability fraction meets the target. -/
theorem c2_binarySearch_exactMinimum (data : List DayData) (a u target : ℚ)
    (hd : data ≠ []) (ha : 0 < a) (hu : 0 < u)
    (hmono : ∀ c c' : Int, 0 < c → c ≤ c' →
      reliaFracAt data a u c ≤ reliaFracAt data a u c')
    (hmax : target ≤ reliaFracAt data a u SEARCH_MAX)
    (L : Int) (hLgrid : isGridSize L)
    (hLP : target ≤ reliaFracAt data a u L)
    (hLmin : ∀ c : Int, isGridSize c → target ≤ reliaFracAt data a u c → L ≤ c) :
    ∃ t, findMinimumTankForConfidence data a u target = Except.ok t
      ∧ t.exactMinimum = some L ∧ t.reachedLimit = false := by
  have hmaxQ : (0 : ℚ) < ((SEARCH_MAX : Int) : ℚ) := by norm_num [SEARCH_MAX]
  obtain ⟨rmax, hrmax⟩ := runWaterBalance_ok ⟨data, ((SEARCH_MAX : Int) : ℚ), a, u, none, none⟩
    hd hmaxQ ha hu
  have hrelmax : reliaFracAt data a u SEARCH_MAX = rmax.summary.reliabilityPercent / 100 := by
    simp only [reliaFracAt, hrmax]
  obtain ⟨br, hbr⟩ := tankSearchLoop_least data a u target hd ha hu hmono L hLgrid hLP hLmin
    SEARCH_FUEL SEARCH_MIN SEARCH_MAX SEARCH_MAX 0
    (by decide) (by decide) (by decide) (by decide)
    (by simp only [SEARCH_FUEL, SEARCH_MIN, SEARCH_MAX]; omega)
    (fun c hcg hclt => absurd hclt (by
      rcases hcg with ⟨_, h2, _⟩
      simp only [SEARCH_MIN]
      omega))
    (by decide) hmax (by decide)
  have hL1000 : 1000 ≤ L := hLgrid.2.1
  have hLpr : L ≤ ⌈(L : ℚ) / 1000⌉ * 1000 := le_practical L
  have hpr0 : (0 : ℚ) < ((⌈(L : ℚ) / 1000⌉ * 1000 : Int) : ℚ) := by
    have h : (0 : Int) < ⌈(L : ℚ) / 1000⌉ * 1000 := by omega
    exact_mod_cast h
  obtain ⟨rv, hrv⟩ := runWaterBalance_ok
    ⟨data, ((⌈(L : ℚ) / 1000⌉ * 1000 : Int) : ℚ), a, u, none, none⟩ hd hpr0 ha hu
  rw [findMinimumTankForConfidence]
  simp only [hrmax, except_bind_ok]
  rw [if_neg (by rw [← hrelmax]; exact not_lt.mpr hmax)]
  simp only [hbr, except_bind_ok]
  simp only [hrv, except_bind_ok]
  exact ⟨_, rfl, rfl, rfl⟩

/-- Witness for C2 on one dry day: with usage 500 L and the default
half-full initial level, 1500 L is the least grid capacity whose single
simulated day is not empty. -/
theorem c2_binarySearch_exactMinimum_witness :
    ∃ t, findMinimumTankForConfidence wData1 1 500 (1/2) = Except.ok t
      ∧ t.exactMinimum = some 1500 ∧ t.reachedLimit = false :=
  c2_binarySearch_exactMinimum wData1 1 500 (1/2)
    (by decide) (by norm_num) (by norm_num)
    (fun c c' hc hcc => reliaFracAt_mono wData1 1 500 (by decide) (by norm_num)
      (by norm_num) c c' hc hcc)
    (by decide) 1500 (by decide) (by decide)
    (by
      intro c hcg hP
      rcases hcg with ⟨h5, h10, hmax⟩
      by_contra hlt
      push_neg at hlt
      have hc1000 : c = 1000 := by omega
      rw [hc1000] at hP
      exact absurd hP (by decide))

/-- C5: on valid input the sizing result satisfies its postcondition:
when the limit was not reached the achieved confidence of the
recommended (rounded-up, re-simulated) size meets `target × 100`; when
it was reached the recommended size is `SEARCH_MAX`. -/
theorem c5_tankSizing_postcondition (data : List DayData) (a u target : ℚ)
    (hd : data ≠ []) (ha : 0 < a) (hu : 0 < u) :
    ∃ t, findMinimumTankForConfidence data a u target = Except.ok t
      ∧ (t.reachedLimit = false → target * 100 ≤ t.achievedConfidence)
      ∧ (t.reachedLimit = true → t.recommendedSize = SEARCH_MAX) := by
  have hmaxQ : (0 : ℚ) < ((SEARCH_MAX : Int) : ℚ) := by norm_num [SEARCH_MAX]
  obtain ⟨rmax, hrmax⟩ := runWaterBalance_ok ⟨data, ((SEARCH_MAX : Int) : ℚ), a, u, none, none⟩
    hd hmaxQ ha hu
  have hrelmax : reliaFracAt data a u SEARCH_MAX = rmax.summary.reliabilityPercent / 100 := by
    simp only [reliaFracAt, hrmax]
  by_cases hcond : rmax.summary.reliabilityPercent / 100 < target
  · rw [findMinimumTankForConfidence]
    simp only [hrmax, except_bind_ok]
    rw [if_pos hcond]
    refine ⟨_, rfl, ?_, ?_⟩
    · intro habs
      simp at habs
    · intro _
      rfl
  · have hmaxP : target ≤ reliaFracAt data a u SEARCH_MAX := by
      rw [hrelmax]
      exact not_lt.mp hcond
    obtain ⟨bs, br, hbr, hbsgrid, hbsP⟩ := tankSearchLoop_best data a u target hd ha hu
      SEARCH_FUEL SEARCH_MIN SEARCH_MAX SEARCH_MAX 0
      (by decide) (by decide) (by decide) (by decide) (by decide) hmaxP
    have hbs1000 : 1000 ≤ bs := hbsgrid.2.1
    have hbspr : bs ≤ ⌈(bs : ℚ) / 1000⌉ * 1000 := le_practical bs
    have hpr0 : (0 : ℚ) < ((⌈(bs : ℚ) / 1000⌉ * 1000 : Int) : ℚ) := by
      have h : (0 : Int) < ⌈(bs : ℚ) / 1000⌉ * 1000 := by omega
      exact_mod_cast h
    obtain ⟨rv, hrv⟩ := runWaterBalance_ok
      ⟨data, ((⌈(bs : ℚ) / 1000⌉ * 1000 : Int) : ℚ), a, u, none, none⟩ hd hpr0 ha hu
    have hrelv : reliaFracAt data a u (⌈(bs : ℚ) / 1000⌉ * 1000)
        = rv.summary.reliabilityPercent / 100 := by
      simp only [reliaFracAt, hrv]
    have hmono2 : reliaFracAt data a u bs ≤ reliaFracAt data a u (⌈(bs : ℚ) / 1000⌉ * 1000) :=
      reliaFracAt_mono data a u hd ha hu bs _ (by omega) hbspr
    rw [findMinimumTankForConfidence]
    simp only [hrmax, except_bind_ok]
    rw [if_neg hcond]
    simp only [hbr, except_bind_ok]
    simp only [hrv, except_bind_ok]
    refine ⟨_, rfl, ?_, ?_⟩
    · intro _
      show target * 100 ≤ rv.summary.reliabilityPercent
      have h1 : target ≤ rv.summary.reliabilityPercent / 100 := by
        rw [← hrelv]
        exact le_trans hbsP hmono2
      linarith
    · intro habs
      simp at habs

/-- Witness for C5 on one dry day with the default 95% target. -/
theorem c5_tankSizing_postcondition_witness :
    ∃ t, findMinimumTankForConfidence wData1 1 500 (19/20) = Except.ok t
      ∧ (t.reachedLimit = false → (19/20 : ℚ) * 100 ≤ t.achievedConfidence)
      ∧ (t.reachedLimit = true → t.recommendedSize = SEARCH_MAX) :=
  c5_tankSizing_postcondition wData1 1 500 (19/20)
    (by decide) (by norm_num) (by norm_num)

/-! ## Division-by-zero guards in the opportunistic analysis -/

theorem forall₂_mem_right {α β : Type} {P : α → β → Prop} :
    ∀ {l : List α} {l' : List β}, List.Forall₂ P l l' →
    ∀ b ∈ l', ∃ a ∈ l, P a b := by
  intro l l' h
  induction h with
  | nil => simp
  | cons hab _ ih =>
    intro b hb
    rcases List.mem_cons.mp hb with hb | hb
    · subst hb
      exact ⟨_, by simp, hab⟩
    · obtain ⟨x, hx, hPx⟩ := ih b hb
      exact ⟨x, by simp [hx], hPx⟩

/-- Counterexample to C8 as stated: on a dataset whose total potential
capture is zero (one missing day), the opportunistic analysis completes
without any failure and surfaces the sentinel value `0` for both
`captureEfficiency` and `overflowPercent`, instead of raising
`InvalidInput`. -/
theorem c8_divzero_sentinel_counterexample :
    (analyzeOpportunisticMode wDataMissing 100 500 (7/2) (some [2000])).toOption.map
      (fun r => r.comparisons.map (fun e => (e.captureEfficiency, e.overflowPercent)))
      = some [(0, 0)] := by
  decide

/-- C8 as amended: the division-by-zero edge case in
`captureEfficiency` and `overflowPercent` is guarded by returning the
sentinel value `0` rather than by raising `InvalidInput`: whenever the
total potential capture is zero, the call still succeeds and every
comparison entry carries `0` in both fields. -/
theorem c8_divzero_sentinel_amended (data : List DayData) (a u rate : ℚ)
    (sizes : List ℚ) (hd : data ≠ []) (ha : 0 < a) (hu : 0 < u)
    (hsz : sizes ≠ []) (hpos : ∀ s ∈ sizes, 0 < s)
    (hcap : (calculateRoofPotential data a DEFAULTS.runoffCoefficient).totalCapture_L = 0) :
    ∃ res, analyzeOpportunisticMode data a u rate (some sizes) = Except.ok res
      ∧ ∀ e ∈ res.comparisons, e.captureEfficiency = 0 ∧ e.overflowPercent = 0 := by
  obtain ⟨ys, hys, hfa⟩ := mapM_ok_forall₂
    (compareTankSize data a u rate (u * (data.length : ℚ))
      ((data.length : ℚ) / (36525/100))
      (calculateRoofPotential data a DEFAULTS.runoffCoefficient).totalCapture_L)
    sizes
    (fun x hx => by
      obtain ⟨e, he, _, _, _⟩ := compareTankSize_offset data a u rate
        (u * (data.length : ℚ)) ((data.length : ℚ) / (36525/100))
        (calculateRoofPotential data a DEFAULTS.runoffCoefficient).totalCapture_L
        x hd ha hu (hpos x hx)
      exact ⟨e, he⟩)
  have hysne : ys ≠ [] := by
    intro hnil
    have := hfa.length_eq
    rw [hnil] at this
    simp at this
    exact hsz this
  obtain ⟨bv, hbv⟩ := findBestValueTank_isSome ys hysne
  have hfaP : List.Forall₂ (fun s e => 0 < s
      ∧ compareTankSize data a u rate (u * (data.length : ℚ))
          ((data.length : ℚ) / (36525/100))
          (calculateRoofPotential data a DEFAULTS.runoffCoefficient).totalCapture_L s
        = Except.ok e) sizes ys :=
    (List.forall₂_and_left _ _).mpr ⟨hpos, hfa⟩
  have hzero : ∀ e ∈ ys, e.captureEfficiency = 0 ∧ e.overflowPercent = 0 := by
    intro e he
    obtain ⟨s, _, hs0, hse⟩ := forall₂_mem_right hfaP e he
    obtain ⟨e', he', _, heff, hover⟩ := compareTankSize_offset data a u rate
      (u * (data.length : ℚ)) ((data.length : ℚ) / (36525/100))
      (calculateRoofPotential data a DEFAULTS.runoffCoefficient).totalCapture_L
      s hd ha hu hs0
    have hee : e = e' := by
      have h12 := hse.symm.trans he'
      injection h12
    rw [hee, heff, hover, hcap]
    norm_num
  have hok : ∃ res, analyzeOpportunisticMode data a u rate (some sizes) = Except.ok res
      ∧ res.comparisons = ys := by
    rw [analyzeOpportunisticMode]
    simp only [Option.getD_some]
    rw [hys, except_bind_ok, hbv]
    exact ⟨_, rfl, rfl⟩
  obtain ⟨res, hres, hcomp⟩ := hok
  exact ⟨res, hres, hcomp ▸ hzero⟩

/-- Witness for the amended C8. -/
theorem c8_divzero_sentinel_amended_witness :
    ∃ res, analyzeOpportunisticMode wDataMissing 100 500 (7/2) (some [2000]) = Except.ok res
      ∧ ∀ e ∈ res.comparisons, e.captureEfficiency = 0 ∧ e.overflowPercent = 0 :=
  c8_divzero_sentinel_amended wDataMissing 100 500 (7/2) [2000]
    (by decide) (by norm_num) (by norm_num) (by decide)
    (by
      intro s hs
      simp only [List.mem_singleton] at hs
      rw [hs]
      norm_num)
    (by decide)

/-! ## Absent confidence validation in the security analysis -/

theorem mapM_isOk {α β : Type} (f : α → Except String β) (l : List α)
    (h : ∀ x ∈ l, ∃ y, f x = Except.ok y) : ∃ ys, l.mapM f = Except.ok ys := by
  obtain ⟨ys, hys, _⟩ := mapM_ok_forall₂ f l h
  exact ⟨ys, hys⟩

theorem mem_insertSorted (x y : Int) :
    ∀ (l : List Int), x ∈ insertSorted y l → x = y ∨ x ∈ l
  | [] => by simp [insertSorted]
  | z :: l => by
    simp only [insertSorted]
    split_ifs with h
    · intro hx
      exact List.mem_cons.mp hx
    · intro hx
      rcases List.mem_cons.mp hx with hx | hx
      · right
        rw [hx]
        exact List.mem_cons_self z l
      · rcases mem_insertSorted x y l hx with h1 | h1
        · exact Or.inl h1
        · exact Or.inr (List.mem_cons_of_mem z h1)

theorem mem_sortInts (x : Int) : ∀ (l : List Int), x ∈ sortInts l → x ∈ l
  | [] => by simp [sortInts]
  | y :: l => by
    intro hx
    have hx' : x ∈ insertSorted y (sortInts l) := hx
    rcases mem_insertSorted x y (sortInts l) hx' with h | h
    · rw [h]
      exact List.mem_cons_self y l
    · exact List.mem_cons_of_mem y (mem_sortInts x l h)

theorem mem_dedupFirst_aux :
    ∀ (l acc : List Int) (x : Int),
    x ∈ l.foldl (fun acc x => if x ∈ acc then acc else acc ++ [x]) acc →
    x ∈ acc ∨ x ∈ l
  | [], acc, x => fun h => Or.inl h
  | y :: l, acc, x => by
    intro h
    rcases mem_dedupFirst_aux l (if y ∈ acc then acc else acc ++ [y]) x h with h1 | h1
    · split_ifs at h1 with hy
      · exact Or.inl h1
      · rcases List.mem_append.mp h1 with h2 | h2
        · exact Or.inl h2
        · simp only [List.mem_singleton] at h2
          right
          simp [h2]
    · right
      simp [h1]

theorem mem_dedupFirst (x : Int) (l : List Int) : x ∈ dedupFirst l → x ∈ l := by
  intro h
  rcases mem_dedupFirst_aux l [] x h with h1 | h1
  · simp at h1
  · exact h1

theorem mem_sortIntsDesc (x : Int) (l : List Int) : x ∈ sortIntsDesc l → x ∈ l := by
  intro h
  rw [sortIntsDesc, List.mem_reverse] at h
  exact mem_sortInts x l h

/-- The smaller-tank comparison succeeds on valid input: every candidate
size survives the `≥ 1000 L` filter and so simulates successfully. -/
theorem analyzeSmallterTanks_ok (data : List DayData) (a u : ℚ) (rec : Int)
    (hd : data ≠ []) (ha : 0 < a) (hu : 0 < u) :
    ∃ l, analyzeSmallterTanks data a u rec = Except.ok l := by
  rw [analyzeSmallterTanks]
  apply mapM_isOk
  intro size hsize
  have hmem := mem_dedupFirst size _ (mem_sortIntsDesc size _ hsize)
  have h1000 : (1000 : Int) ≤ size := by
    have := (List.mem_filter.mp hmem).2
    simpa using this
  have h0Q : (0 : ℚ) < ((size : Int) : ℚ) := by
    have : (0 : Int) < size := by omega
    exact_mod_cast this
  obtain ⟨r, hr⟩ := runWaterBalance_ok ⟨data, ((size : Int) : ℚ), a, u, none, none⟩
    hd h0Q ha hu
  exact ⟨_, by rw [hr]; rfl⟩

/-- The sizing search succeeds on valid input for any target, and the
recommended size is at least 1000 L. -/
theorem findMinimumTank_ok (data : List DayData) (a u target : ℚ)
    (hd : data ≠ []) (ha : 0 < a) (hu : 0 < u) :
    ∃ t, findMinimumTankForConfidence data a u target = Except.ok t
      ∧ 1000 ≤ t.recommendedSize := by
  have hmaxQ : (0 : ℚ) < ((SEARCH_MAX : Int) : ℚ) := by norm_num [SEARCH_MAX]
  obtain ⟨rmax, hrmax⟩ := runWaterBalance_ok ⟨data, ((SEARCH_MAX : Int) : ℚ), a, u, none, none⟩
    hd hmaxQ ha hu
  by_cases hcond : rmax.summary.reliabilityPercent / 100 < target
  · rw [findMinimumTankForConfidence]
    simp only [hrmax, except_bind_ok]
    rw [if_pos hcond]
    refine ⟨_, rfl, ?_⟩
    show (1000 : Int) ≤ SEARCH_MAX
    decide
  · have hmaxP : target ≤ reliaFracAt data a u SEARCH_MAX := by
      have : reliaFracAt data a u SEARCH_MAX = rmax.summary.reliabilityPercent / 100 := by
        simp only [reliaFracAt, hrmax]
      rw [this]
      exact not_lt.mp hcond
    obtain ⟨bs, br, hbr, hbsgrid, hbsP⟩ := tankSearchLoop_best data a u target hd ha hu
      SEARCH_FUEL SEARCH_MIN SEARCH_MAX SEARCH_MAX 0
      (by decide) (by decide) (by decide) (by decide) (by decide) hmaxP
    have hbs1000 : 1000 ≤ bs := hbsgrid.2.1
    have hbspr : bs ≤ ⌈(bs : ℚ) / 1000⌉ * 1000 := le_practical bs
    have hpr0 : (0 : ℚ) < ((⌈(bs : ℚ) / 1000⌉ * 1000 : Int) : ℚ) := by
      have h : (0 : Int) < ⌈(bs : ℚ) / 1000⌉ * 1000 := by omega
      exact_mod_cast h
    obtain ⟨rv, hrv⟩ := runWaterBalance_ok
      ⟨data, ((⌈(bs : ℚ) / 1000⌉ * 1000 : Int) : ℚ), a, u, none, none⟩ hd hpr0 ha hu
    rw [findMinimumTankForConfidence]
    simp only [hrmax, except_bind_ok]
    rw [if_neg hcond]
    simp only [hbr, except_bind_ok]
    simp only [hrv, except_bind_ok]
    refine ⟨_, rfl, ?_⟩
    show (1000 : Int) ≤ ⌈(bs : ℚ) / 1000⌉ * 1000
    omega

/-- Counterexample to C7 as stated: a confidence target of 2 lies
outside (0,1], yet the security analysis completes successfully, raising
no failure at all. -/
theorem c7_confidence_validation_counterexample :
    (analyzeSecurityMode wData1 1 500 2).isOk = true := by
  decide

/-- C7 as amended: the security analysis never validates the confidence
target.  On a non-empty sequence with positive area and usage the call
succeeds for every confidence value, including every value outside
(0,1]; `InvalidInput` is raised only by `runWaterBalance` for empty data
or non-positive size, area or usage. -/
theorem c7_confidence_not_validated (data : List DayData) (a u conf : ℚ)
    (hd : data ≠ []) (ha : 0 < a) (hu : 0 < u) :
    ∃ res, analyzeSecurityMode data a u conf = Except.ok res := by
  obtain ⟨t, hts, hrec⟩ := findMinimumTank_ok data a u conf hd ha hu
  have hrec0 : (0 : ℚ) < ((t.recommendedSize : Int) : ℚ) := by
    have : (0 : Int) < t.recommendedSize := by omega
    exact_mod_cast this
  obtain ⟨rr, hrr⟩ := runWaterBalance_ok
    ⟨data, ((t.recommendedSize : Int) : ℚ), a, u, none, none⟩ hd hrec0 ha hu
  obtain ⟨sl, hsl⟩ := analyzeSmallterTanks_ok data a u t.recommendedSize hd ha hu
  rw [analyzeSecurityMode]
  simp only [hts, except_bind_ok]
  simp only [hrr, except_bind_ok]
  simp only [hsl, except_bind_ok]
  exact ⟨_, rfl⟩

/-- Witness for the amended C7, at a confidence target of 2 ∉ (0,1]. -/
theorem c7_confidence_not_validated_witness :
    ∃ res, analyzeSecurityMode wData3 100 500 2 = Except.ok res :=
  c7_confidence_not_validated wData3 100 500 2
    (by decide) (by norm_num) (by norm_num)

end DrySpell
